import Mathlib

/-!
# Device attach and mount subsystem of the guest agent (`syscall.go`)

A shallow embedding of `syscall.go` and a verification of its specification.

* Go strings are Lean strings; the `path/filepath` and `strings` helpers the
  file calls (`Clean`, `Join`, `Split`, `Base`, `Contains`) are written out on
  character lists, following the Go standard library for Unix paths.
* Every call that leaves the process (`os.Stat`, `os.Mkdir`, `syscall.Mount`,
  the udev monitor, `exec.Command`, ...) is a field of the record `OS`, a
  deterministic environment over an arbitrary state type. Each call is also
  appended to a log, so that the order of the calls can be stated.
* A Go function returning `error` returns `Option Error` (`none` is `nil`);
  a function that can raise a run-time panic returns an `Outcome`.
* Logging through `agentLog` has no effect on control flow and is left out.
-/

namespace Agent

/-! ## Strings and paths -/

namespace filepath

/-- The path separator of Unix. -/
def Separator : Char := '/'

/-- Elements of a path between separators; `"a//b"` has the elements `a`, empty, `b`. -/
def elements : List Char → List (List Char)
  | [] => [[]]
  | c :: cs =>
    if c = Separator then [] :: elements cs
    else
      match elements cs with
      | [] => [[c]]
      | e :: es => (c :: e) :: es

/-- One step of `Clean` on the stack of elements kept so far (innermost first):
empty and `.` elements are dropped; `..` removes the last kept element when
there is one that is not itself `..`, is kept when the path is not rooted, and
is dropped at the root; any other element is kept. -/
def cleanStep (rooted : Bool) (kept : List (List Char)) (e : List Char) : List (List Char) :=
  if e = [] ∨ e = ['.'] then kept
  else if e = ['.', '.'] then
    match kept with
    | top :: below =>
      if top = ['.', '.'] then (if rooted then kept else e :: kept) else below
    | [] => if rooted then [] else [e]
  else e :: kept

/-- Go `filepath.Clean` on characters. -/
def cleanChars (path : List Char) : List Char :=
  match path with
  | [] => ['.']
  | c :: _ =>
    let rooted : Bool := c = Separator
    let kept := (elements path).foldl (cleanStep rooted) []
    let body := List.intercalate [Separator] kept.reverse
    if rooted then Separator :: body
    else if body = [] then ['.'] else body

/-- Go `filepath.Clean`. -/
def Clean (path : String) : String := String.mk (cleanChars path.data)

/-- Go `strings.Join(elem, "/")`. -/
def joinSep (elem : List String) : List Char :=
  List.intercalate [Separator] (elem.map String.data)

/-- Go `filepath.Join`: leading empty elements are skipped, the rest is joined
with separators and cleaned; the result is empty when every element is empty. -/
def Join : List String → String
  | [] => ""
  | e :: rest => if e = "" then Join rest else String.mk (cleanChars (joinSep (e :: rest)))

/-- Characters of `path` after the last separator. -/
def lastElement (path : List Char) : List Char :=
  (path.reverse.takeWhile (fun c => c ≠ Separator)).reverse

/-- Go `filepath.Split`: the directory part ends with the last separator, the
file part is what follows it. -/
def Split (path : String) : String × String :=
  let file := lastElement path.data
  (String.mk (path.data.take (path.data.length - file.length)), String.mk file)

/-- Go `filepath.Base` on characters: the last element of the path once the
trailing separators are removed; `.` for the empty path and `/` for a path
of separators only. -/
def baseChars (path : List Char) : List Char :=
  if path = [] then ['.']
  else
    let stripped := (path.reverse.dropWhile (fun c => c = Separator)).reverse
    let last := lastElement stripped
    if last = [] then [Separator] else last

/-- Go `filepath.Base`. -/
def Base (path : String) : String := String.mk (baseChars path.data)

end filepath

namespace strings

/-- Whether `sub` occurs in `s` as a contiguous run of characters. -/
def containsChars (s sub : List Char) : Bool :=
  match s with
  | [] => sub.isEmpty
  | c :: cs => sub.isPrefixOf (c :: cs) || containsChars cs sub

/-- Go `strings.Contains`. -/
def Contains (s substr : String) : Bool := containsChars s.data substr.data

end strings

/-! ## Errors, results and the environment -/

/-- A Go `error` value. `errno` is a `syscall.Errno` (also when carried by an
`*os.PathError`), `exec` the failure of an external command, `errorf` an
error built by `fmt.Errorf` from a format and its operands, `wrapf` one whose
last operand is another error. -/
inductive Error
  | errno (n : Nat)
  | exec (code : Nat)
  | errorf (format : String) (args : List String)
  | wrapf (format : String) (args : List String) (cause : Error)
deriving DecidableEq, Repr

def EEXIST : Nat := 17
def ENOTEMPTY : Nat := 39
def ENOENT : Nat := 2
def ENOTDIR : Nat := 20
def EISDIR : Nat := 21
def EINVAL : Nat := 22
def EBUSY : Nat := 16

/-- Go `os.IsExist`: the error says that a file or directory already exists.
It is false for `nil`. -/
def isExist : Option Error → Bool
  | some (Error.errno n) => n = EEXIST || n = ENOTEMPTY
  | _ => false

/-- Equality of results is decidable when it is for values and errors. -/
instance instDecidableEqExcept {ε α : Type} [DecidableEq ε] [DecidableEq α] :
    DecidableEq (Except ε α)
  | Except.ok a, Except.ok b =>
    if h : a = b then isTrue (congrArg Except.ok h) else isFalse (fun h2 => h (Except.ok.inj h2))
  | Except.error a, Except.error b =>
    if h : a = b then isTrue (congrArg Except.error h)
    else isFalse (fun h2 => h (Except.error.inj h2))
  | Except.ok _, Except.error _ => isFalse (fun h => Except.noConfusion h)
  | Except.error _, Except.ok _ => isFalse (fun h => Except.noConfusion h)

/-- What `os.Stat` tells about a file, as far as the code reads it. -/
structure FileInfo where
  isDir : Bool
deriving DecidableEq, Repr

/-- A device event of the udev monitor. -/
structure Event where
  Action : String
  Devpath : String
  Syspath : String
deriving DecidableEq, Repr

/-- What a Go call produced: a returned value, or a run-time panic. -/
inductive Outcome (α : Type)
  | returned (value : α)
  | panicked (message : String)
deriving DecidableEq, Repr

/-- The calls that leave the process, with their arguments. -/
inductive Call
  | stat (path : String)
  | evalSymlinks (path : String)
  | mkdirAll (path : String) (perm : Nat)
  | mkdir (path : String) (perm : Nat)
  | openFile (path : String) (flag perm : Nat)
  | close (file : Nat)
  | mount (source target fstype : String) (flags : Nat) (data : String)
  | unmount (target : String) (flags : Nat)
  | removeAll (path : String)
  | readDir (path : String)
  | writeFile (path : String) (data : String) (perm : Nat)
  | udevFilter (subsystem devtype : String)
  | udevChan
  | udevEvent (d : Event)
  | udevCancel
  | exec (name : String) (args : List String)
deriving DecidableEq, Repr

/-- The environment of the agent: the operating system and the libraries
reached through it, as a deterministic machine over a state `σ`. Each field is
the call of the same name; `readDir` yields the names of the entries;
`udevChan` stands for `monitor.DeviceChan` together with the three-second
timer of `waitForBlockDevice`: it yields the events the channel delivers
before the timer fires, in order, and whether the channel is closed before
then; `combinedOutput` runs an external command. -/
structure OS (σ : Type) where
  stat : String → σ → Except Error FileInfo × σ
  evalSymlinks : String → σ → Except Error String × σ
  mkdirAll : String → Nat → σ → Option Error × σ
  mkdir : String → Nat → σ → Option Error × σ
  openFile : String → Nat → Nat → σ → Except Error Nat × σ
  close : Nat → σ → σ
  mount : String → String → String → Nat → String → σ → Option Error × σ
  unmount : String → Nat → σ → Option Error × σ
  removeAll : String → σ → Option Error × σ
  readDir : String → σ → Except Error (List String) × σ
  writeFile : String → String → Nat → σ → Option Error × σ
  udevFilter : String → String → σ → Option Error × σ
  udevChan : σ → (List Event × Bool) × σ
  combinedOutput : String → List String → σ → (String × Option Error) × σ

/-- The state of the environment and the calls made so far, oldest first. -/
structure World (σ : Type) where
  st : σ
  log : List Call
deriving DecidableEq, Repr

section Calls

variable {σ : Type} (os : OS σ)

def doStat (path : String) (w : World σ) : Except Error FileInfo × World σ :=
  ((os.stat path w.st).1, ⟨(os.stat path w.st).2, w.log ++ [Call.stat path]⟩)

def doEvalSymlinks (path : String) (w : World σ) : Except Error String × World σ :=
  ((os.evalSymlinks path w.st).1, ⟨(os.evalSymlinks path w.st).2, w.log ++ [Call.evalSymlinks path]⟩)

def doMkdirAll (path : String) (perm : Nat) (w : World σ) : Option Error × World σ :=
  ((os.mkdirAll path perm w.st).1, ⟨(os.mkdirAll path perm w.st).2, w.log ++ [Call.mkdirAll path perm]⟩)

def doMkdir (path : String) (perm : Nat) (w : World σ) : Option Error × World σ :=
  ((os.mkdir path perm w.st).1, ⟨(os.mkdir path perm w.st).2, w.log ++ [Call.mkdir path perm]⟩)

def doOpenFile (path : String) (flag perm : Nat) (w : World σ) : Except Error Nat × World σ :=
  ((os.openFile path flag perm w.st).1,
    ⟨(os.openFile path flag perm w.st).2, w.log ++ [Call.openFile path flag perm]⟩)

def doClose (file : Nat) (w : World σ) : World σ :=
  ⟨os.close file w.st, w.log ++ [Call.close file]⟩

def doMount (source target fstype : String) (flags : Nat) (data : String) (w : World σ) :
    Option Error × World σ :=
  ((os.mount source target fstype flags data w.st).1,
    ⟨(os.mount source target fstype flags data w.st).2,
      w.log ++ [Call.mount source target fstype flags data]⟩)

def doUnmount (target : String) (flags : Nat) (w : World σ) : Option Error × World σ :=
  ((os.unmount target flags w.st).1, ⟨(os.unmount target flags w.st).2, w.log ++ [Call.unmount target flags]⟩)

def doRemoveAll (path : String) (w : World σ) : Option Error × World σ :=
  ((os.removeAll path w.st).1, ⟨(os.removeAll path w.st).2, w.log ++ [Call.removeAll path]⟩)

def doReadDir (path : String) (w : World σ) : Except Error (List String) × World σ :=
  ((os.readDir path w.st).1, ⟨(os.readDir path w.st).2, w.log ++ [Call.readDir path]⟩)

def doWriteFile (path data : String) (perm : Nat) (w : World σ) : Option Error × World σ :=
  ((os.writeFile path data perm w.st).1,
    ⟨(os.writeFile path data perm w.st).2, w.log ++ [Call.writeFile path data perm]⟩)

def doUdevFilter (subsystem devtype : String) (w : World σ) : Option Error × World σ :=
  ((os.udevFilter subsystem devtype w.st).1,
    ⟨(os.udevFilter subsystem devtype w.st).2, w.log ++ [Call.udevFilter subsystem devtype]⟩)

def doUdevChan (w : World σ) : (List Event × Bool) × World σ :=
  ((os.udevChan w.st).1, ⟨(os.udevChan w.st).2, w.log ++ [Call.udevChan]⟩)

def doCombinedOutput (name : String) (args : List String) (w : World σ) :
    (String × Option Error) × World σ :=
  ((os.combinedOutput name args w.st).1,
    ⟨(os.combinedOutput name args w.st).2, w.log ++ [Call.exec name args]⟩)

end Calls

/-! ## The functions of `syscall.go` -/

/-- The path constants that `syscall.go` uses and another file of the package
declares. -/
structure Config where
  mountShareDirDest : String
  containerMountDest : String

/-- The mount destination of a container, `<containerMountDest>/<containerID>/root`
(lines 240 and 310). -/
def containerRoot (cfg : Config) (containerID : String) : String :=
  filepath.Join [cfg.containerMountDest, containerID, "root"]

/-- The inner root mount path, `<containerMountDest>/<containerID>/root/<rootFs>`
(line 297). -/
def innerRoot (cfg : Config) (containerID rootFs : String) : String :=
  filepath.Join [containerRoot cfg containerID, rootFs]

def mountPerm : Nat := 0o755
def devPath : String := "/dev"

def O_CREATE : Nat := 0x40
def MS_BIND : Int := 0x1000
def MS_REC : Int := 0x4000

/-- Go conversion `uintptr(flags)` of an `int` on a 64-bit machine. -/
def uintptr (flags : Int) : Nat := (flags % 2 ^ 64).toNat

section Functions

variable {σ : Type} (os : OS σ)

/-- Function `ensureDestinationExists` (lines 75-99). -/
def ensureDestinationExists (source destination fsType : String) (w : World σ) :
    Option Error × World σ :=
  match doStat os source w with
  | (Except.error _, w1) => (some (Error.errorf "could not stat source location: %v" [source]), w1)
  | (Except.ok fileInfo, w1) =>
    let targetPathParent := (filepath.Split destination).1
    match doMkdirAll os targetPathParent mountPerm w1 with
    | (some _, w2) =>
      (some (Error.errorf "could not create parent directory: %v" [targetPathParent]), w2)
    | (none, w2) =>
      if fsType ≠ "bind" ∨ fileInfo.isDir = true then
        match doMkdir os destination mountPerm w2 with
        | (err, w3) => if !isExist err then (err, w3) else (none, w3)
      else
        match doOpenFile os destination O_CREATE mountPerm w2 with
        | (Except.error err, w3) => (some err, w3)
        | (Except.ok file, w3) => (none, doClose os file w3)

/-- Function `mount` (lines 51-71). -/
def mount (source destination fsType : String) (flags : Int) (w : World σ) :
    Option Error × World σ :=
  let options := if fsType = "xfs" then "nouuid" else ""
  match doEvalSymlinks os source w with
  | (Except.error _, w1) =>
    (some (Error.errorf "Could not resolve symlink for source %v" [source]), w1)
  | (Except.ok absSource, w1) =>
    match ensureDestinationExists os absSource destination fsType w1 with
    | (some err, w2) =>
      (some (Error.wrapf "Could not create destination mount point: %v: %v" [destination] err), w2)
    | (none, w2) =>
      match doMount os absSource destination fsType (uintptr flags) options w2 with
      | (some err, w3) =>
        (some (Error.wrapf "Could not bind mount %v to %v: %v" [absSource, destination] err), w3)
      | (none, w3) => (none, w3)

/-- Function `bindMount` (lines 38-46). -/
def bindMount (source destination : String) (recursive : Bool) (w : World σ) :
    Option Error × World σ :=
  let flags := MS_BIND
  let flags := if recursive = true then Int.lor flags MS_REC else flags
  mount os source destination "bind" flags w

/-- The condition under which the loop of `waitForBlockDevice` leaves with
`break` on the event `d` (lines 169-175). -/
def eventMatches (deviceName : String) (isSCSI : Bool) (d : Event) : Bool :=
  if isSCSI && d.Action == "add" && strings.Contains d.Devpath deviceName then true
  else if d.Action == "add" && filepath.Base d.Devpath == deviceName then true
  else false

/-- The loop `for d := range ch` of `waitForBlockDevice` (lines 161-176) on the
events the channel delivers: the events read, and whether the loop was left
with `break`. -/
def listenLoop (deviceName : String) (isSCSI : Bool) : List Event → List Event × Bool
  | [] => ([], false)
  | d :: ch =>
    if eventMatches deviceName isSCSI d then ([d], true)
    else (d :: (listenLoop deviceName isSCSI ch).1, (listenLoop deviceName isSCSI ch).2)

/-- The part of `waitForBlockDevice` after the fast path (lines 132-189): the
subscription, the goroutine and the `select`, run in sequence. The goroutine
closes `doneListening` when the device node exists, when an event matches, or
when the channel is closed; otherwise the timer fires. -/
def listenForDevice (deviceName : String) (isSCSI : Bool) (w : World σ) :
    Option Error × World σ :=
  let devicePath := filepath.Join [devPath, deviceName]
  match doUdevFilter os "block" "disk" w with
  | (some err, w1) => (some err, w1)
  | (none, w1) =>
    match doUdevChan os w1 with
    | ((ch, closed), w2) =>
      match doStat os devicePath w2 with
      | (Except.ok _, w3) => (none, (⟨w3.st, w3.log ++ [Call.udevCancel]⟩ : World σ))
      | (Except.error _, w3) =>
        let read := listenLoop deviceName isSCSI ch
        let w4 : World σ := ⟨w3.st, w3.log ++ read.1.map Call.udevEvent ++ [Call.udevCancel]⟩
        if read.2 || closed then (none, w4)
        else (some (Error.errorf "Timed out waiting for device %s" [deviceName]), w4)

/-- Function `waitForBlockDevice` (lines 121-190). -/
def waitForBlockDevice (deviceName : String) (isSCSI : Bool) (w : World σ) :
    Option Error × World σ :=
  let devicePath := filepath.Join [devPath, deviceName]
  if isSCSI = true then
    match doStat os "/sys/class/scsi_device/0:0:0:0" w with
    | (Except.ok _, w1) => (none, w1)
    | (Except.error _, w1) => listenForDevice os deviceName isSCSI w1
  else
    match doStat os devicePath w with
    | (Except.ok _, w1) => (none, w1)
    | (Except.error _, w1) => listenForDevice os deviceName isSCSI w1

/-- The loop of `scanSCSIBus` over the entries of the host registry (lines 206-212). -/
def scanHosts (scsiHostPath : String) : List String → World σ → Option Error × World σ
  | [], w => (none, w)
  | host :: files, w =>
    match doWriteFile os (filepath.Join [scsiHostPath, host, "scan"]) "0 0 0" 0o666 w with
    | (some err, w1) => (some err, w1)
    | (none, w1) => scanHosts scsiHostPath files w1

/-- Function `scanSCSIBus` (lines 192-215). -/
def scanSCSIBus (w : World σ) : Option Error × World σ :=
  let scsiHostPath := "/sys/class/scsi_host"
  match doStat os scsiHostPath w with
  | (Except.error err, w1) => (some err, w1)
  | (Except.ok _, w1) =>
    match doReadDir os scsiHostPath w1 with
    | (Except.error err, w2) => (some err, w2)
    | (Except.ok files, w2) => scanHosts os scsiHostPath files w2

/-- The sysfs directory `findSCSIDisk` reads for an address (line 221). -/
def scsiDiskPath (scsiAddr : String) : String :=
  "/sys/class/scsi_disk/0:0:" ++ scsiAddr ++ "/device/block"

/-- Function `findSCSIDisk` (lines 220-237). The element access `files[0]` panics when
the slice is empty. -/
def findSCSIDisk (scsiAddr : String) (w : World σ) :
    Outcome (String × Option Error) × World σ :=
  let scsiPath := scsiDiskPath scsiAddr
  match doStat os scsiPath w with
  | (Except.error err, w1) => (Outcome.returned ("", some err), w1)
  | (Except.ok _, w1) =>
    match doReadDir os scsiPath w1 with
    | (Except.error err, w2) => (Outcome.returned ("", some err), w2)
    | (Except.ok files, w2) =>
      if files.length > 1 then
        (Outcome.returned
          ("", some (Error.errorf "Expecting a single SCSI device, found %v" files)), w2)
      else
        match files[0]? with
        | some file => (Outcome.returned (file, none), w2)
        | none => (Outcome.panicked "runtime error: index out of range", w2)

/-- Function `mountContainerRootFs` (lines 239-303). In the branch taken when
`findSCSIDisk` fails, `err` is the variable declared on line 261, which hides
the error of `findSCSIDisk`. -/
def mountContainerRootFs (cfg : Config) (containerID image rootFs fsType scsiAddr : String)
    (w : World σ) : Outcome (String × Option Error) × World σ :=
  let dest := filepath.Join [cfg.containerMountDest, containerID, "root"]
  let mountingPath := filepath.Join [dest, rootFs]
  let bindRoot := fun (w1 : World σ) =>
    match bindMount os mountingPath mountingPath true w1 with
    | (some err, w2) => (Outcome.returned ("", some err), w2)
    | (none, w2) => (Outcome.returned (mountingPath, none), w2)
  match doMkdirAll os dest 0o755 w with
  | (some err, w1) => (Outcome.returned ("", some err), w1)
  | (none, w1) =>
    if fsType ≠ "" then
      if scsiAddr ≠ "" then
        match scanSCSIBus os w1 with
        | (some err, w2) => (Outcome.returned ("", some err), w2)
        | (none, w2) =>
          match waitForBlockDevice os ("0:" ++ scsiAddr ++ "/block") true w2 with
          | (some err, w3) => (Outcome.returned ("", some err), w3)
          | (none, w3) =>
            match findSCSIDisk os scsiAddr w3 with
            | (Outcome.panicked message, w4) => (Outcome.panicked message, w4)
            | (Outcome.returned (_, some _), w4) =>
              match doCombinedOutput os "ls" ["-la", "/sys/class/scsi_disk/"] w4 with
              | ((_, some err), w5) => (Outcome.returned ("", some err), w5)
              | ((_, none), w5) =>
                match doCombinedOutput os "lsblk" [] w5 with
                | ((_, err), w6) =>
                  if err ≠ none then (Outcome.returned ("", err), w6)
                  else (Outcome.returned ("", err), w6)
            | (Outcome.returned (scsiDiskName, none), w4) =>
              let source := filepath.Join [devPath, scsiDiskName]
              match mount os source dest fsType 0 w4 with
              | (some err, w5) => (Outcome.returned ("", some err), w5)
              | (none, w5) => bindRoot w5
      else
        let source := filepath.Join [devPath, image]
        match waitForBlockDevice os image false w1 with
        | (some err, w2) => (Outcome.returned ("", some err), w2)
        | (none, w2) =>
          match mount os source dest fsType 0 w2 with
          | (some err, w3) => (Outcome.returned ("", some err), w3)
          | (none, w3) => bindRoot w3
    else
      let source := filepath.Join [cfg.mountShareDirDest, image]
      match bindMount os source dest false w1 with
      | (some err, w2) => (Outcome.returned ("", some err), w2)
      | (none, w2) => bindRoot w2

/-- Function `unmountContainerRootFs` (lines 305-316). -/
def unmountContainerRootFs (cfg : Config) (containerID mountingPath : String) (w : World σ) :
    Option Error × World σ :=
  match doUnmount os mountingPath 0 w with
  | (some err, w1) => (some err, w1)
  | (none, w1) =>
    let containerPath := filepath.Join [cfg.containerMountDest, containerID, "root"]
    match doUnmount os containerPath 0 w1 with
    | (some err, w2) => (some err, w2)
    | (none, w2) => doRemoveAll os containerPath w2

end Functions

/-! ## A fixed environment for concrete runs -/

/-- A guest whose answers do not change during a run: the directories and the
other files that exist, the entries of the directories that can be listed, the
events the udev channel delivers before the timer fires, whether the channel
is then closed, what the two diagnostic commands give, and the paths whose
unmount fails. -/
structure Scenario where
  dirs : List String
  files : List String
  listing : List (String × List String)
  events : List Event
  closed : Bool
  ls : String × Option Error
  lsblk : String × Option Error
  busy : List String

/-- The environment of a scenario. Creating, mounting and writing succeed;
`mkdir` of an existing path gives `EEXIST`; a path that is not listed does not
exist. -/
def Scenario.os (sc : Scenario) : OS Unit where
  stat path _ :=
    (if path ∈ sc.dirs then Except.ok ⟨true⟩
     else if path ∈ sc.files then Except.ok ⟨false⟩
     else Except.error (Error.errno ENOENT), ())
  evalSymlinks path _ :=
    (if path ∈ sc.dirs ∨ path ∈ sc.files then Except.ok path
     else Except.error (Error.errno ENOENT), ())
  mkdirAll _ _ _ := (none, ())
  mkdir path _ _ :=
    (if path ∈ sc.dirs ∨ path ∈ sc.files then some (Error.errno EEXIST) else none, ())
  openFile _ _ _ _ := (Except.ok 3, ())
  close _ _ := ()
  mount _ _ _ _ _ _ := (none, ())
  unmount target _ _ := (if target ∈ sc.busy then some (Error.errno 16) else none, ())
  removeAll _ _ := (none, ())
  readDir path _ :=
    (match sc.listing.lookup path with
     | some names => Except.ok names
     | none => Except.error (Error.errno ENOENT), ())
  writeFile _ _ _ _ := (none, ())
  udevFilter _ _ _ := (none, ())
  udevChan _ := ((sc.events, sc.closed), ())
  combinedOutput name _ _ := (if name = "ls" then sc.ls else sc.lsblk, ())

/-- The world before the first call. -/
def start : World Unit := ⟨(), []⟩

/-- The configuration of the agent in the concrete runs. -/
def testConfig : Config := ⟨"/tmp/shareDir", "/tmp/hyper"⟩

/-- Scenario A of the specification: SCSI disk at address `2:0`, announced by
a udev event and bound to the name `sda`; the image holds a directory `rootfs`. -/
def scenarioA : Scenario where
  dirs := ["/sys/class/scsi_host", "/sys/class/scsi_disk/0:0:2:0/device/block",
    "/tmp/hyper/c1/root", "/tmp/hyper/c1/root/rootfs"]
  files := ["/dev/sda"]
  listing := [("/sys/class/scsi_host", ["host0"]),
    ("/sys/class/scsi_disk/0:0:2:0/device/block", ["sda"])]
  events := [⟨"change", "/devices/virtual/block/loop0", "/sys/devices/virtual/block/loop0"⟩,
    ⟨"add", "/devices/pci0000:00/0000:00:02.0/virtio0/host0/target0:0:2/0:0:2:0/block/sda",
      "/sys/devices/pci0000:00/0000:00:02.0/virtio0/host0/target0:0:2/0:0:2:0/block/sda"⟩]
  closed := false
  ls := ("", none)
  lsblk := ("", none)
  busy := []

/-- Like scenario A, but the kernel has bound no disk to the address: the
disk directory does not exist. Both diagnostic commands run without error. -/
def scenarioNoDisk : Scenario where
  dirs := ["/sys/class/scsi_host", "/tmp/hyper/c1/root"]
  files := []
  listing := [("/sys/class/scsi_host", ["host0"])]
  events := [⟨"add", "/devices/pci0000:00/0000:00:02.0/virtio0/host0/target0:0:2/0:0:2:0/block/sda",
    "/sys/devices/pci0000:00/0000:00:02.0/virtio0/host0/target0:0:2/0:0:2:0/block/sda"⟩]
  closed := false
  ls := ("total 0\n", none)
  lsblk := ("NAME MAJ:MIN RM SIZE RO TYPE MOUNTPOINT\n", none)
  busy := []

/-- Like `scenarioNoDisk`, but the command `ls` fails. -/
def scenarioLsFails : Scenario :=
  { scenarioNoDisk with ls := ("ls: cannot access /sys/class/scsi_disk/\n", some (Error.exec 2)) }

/-- Like scenario A, but the disk directory of the address exists and has no entry. -/
def scenarioEmptyDir : Scenario :=
  { scenarioA with
    listing := [("/sys/class/scsi_host", ["host0"]),
      ("/sys/class/scsi_disk/0:0:2:0/device/block", [])] }

/-- Like scenario A, but two disks are listed under the address. -/
def scenarioTwoDisks : Scenario :=
  { scenarioA with
    listing := [("/sys/class/scsi_host", ["host0"]),
      ("/sys/class/scsi_disk/0:0:2:0/device/block", ["sda", "sdb"])] }

/-- The worlds of the run of `mountContainerRootFs` for container `c1` and
address `2:0` in a scenario, step by step: after the creation of the
destination, the rescan, the wait, the resolution. -/
def afterMkdir (sc : Scenario) : World Unit :=
  (doMkdirAll sc.os "/tmp/hyper/c1/root" 0o755 start).2
def afterScan (sc : Scenario) : World Unit := (scanSCSIBus sc.os (afterMkdir sc)).2
def afterWait (sc : Scenario) : World Unit :=
  (waitForBlockDevice sc.os "0:2:0/block" true (afterScan sc)).2
def afterFind (sc : Scenario) : World Unit := (findSCSIDisk sc.os "2:0" (afterWait sc)).2

/-- The worlds after the mount of `/dev/sda` and after the bind mount of the
inner root, in a scenario where the disk is `sda`. -/
def afterMount (sc : Scenario) : World Unit :=
  (mount sc.os "/dev/sda" "/tmp/hyper/c1/root" "ext4" 0 (afterFind sc)).2
def afterBind (sc : Scenario) : World Unit :=
  (bindMount sc.os "/tmp/hyper/c1/root/rootfs" "/tmp/hyper/c1/root/rootfs" true
    (afterMount sc)).2

/-! ## A file system for the mount primitive -/

/-- A guest file system: the files and directories that exist besides the root
directory, each under its absolute clean path with a flag that is true for a
directory, in the order of their creation; the mount table, most recent mount
first, as pairs of target and source; and the refusals of the kernel: for the
coming mount and unmount calls that the model itself does not reject, in
order, the error with which the kernel refuses the call (a mount in use, a
missing permission), if any. When no refusal is left the kernel accepts.
There are no symbolic links, and the working directory is `/`. A path is
looked up in the nodes whatever is mounted: the model does not follow the
contents that a mount shows in place of the directory under it. -/
structure SimFS where
  nodes : List (String × Bool)
  mounts : List (String × String)
  refusals : List (Option Error)
deriving DecidableEq, Repr

namespace SimFS

/-- The absolute clean form of a path. -/
def abs (path : String) : String := filepath.Join ["/", path]

/-- The entry of a path in a list of nodes. -/
def find (a : String) : List (String × Bool) → Option Bool
  | [] => none
  | (p, k) :: rest => if p = a then some k else find a rest

/-- Every node of `n` is a node of `n2`, with the same kind. -/
def Extends (n n2 : List (String × Bool)) : Prop :=
  ∀ a v, find a n = some v → find a n2 = some v

/-- Every node of `n2` is a node of `n` or a directory. -/
def OnlyDirs (n n2 : List (String × Bool)) : Prop :=
  ∀ a v, find a n2 = some v → find a n = some v ∨ v = true

/-- Whether a path exists, and whether it is then a directory. The empty path
names nothing; the root is a directory. -/
def kind (fs : SimFS) (path : String) : Option Bool :=
  if path = "" then none
  else if abs path = "/" then some true
  else find (abs path) fs.nodes

/-- The directory that holds an absolute clean path. -/
def parent (a : String) : String := (filepath.Split a).1

/-- The proper ancestors of an absolute clean path below the root, outermost first. -/
def ancestors (a : String) : List String :=
  ((filepath.elements a.data).filter (fun e => e ≠ [])).inits.dropLast.tail.map
    (fun es => String.mk (filepath.Separator :: List.intercalate [filepath.Separator] es))

/-- Creation of the missing directories of a list of paths, outermost first;
it stops with `ENOTDIR` at a path that is a file. -/
def makeDirs : List String → List (String × Bool) → Option Error × List (String × Bool)
  | [], nodes => (none, nodes)
  | p :: ps, nodes =>
    match find p nodes with
    | some true => makeDirs ps nodes
    | some false => (some (Error.errno ENOTDIR), nodes)
    | none => makeDirs ps (nodes ++ [(p, true)])

/-- Creation of a node of an absent path: its parent has to be a directory. -/
def create (fs : SimFS) (path : String) (isDir : Bool) : Option Error × SimFS :=
  match fs.kind (parent (abs path)) with
  | some true => (none, { fs with nodes := fs.nodes ++ [(abs path, isDir)] })
  | some false => (some (Error.errno ENOTDIR), fs)
  | none => (some (Error.errno ENOENT), fs)

/-- Model of `os.Stat`. -/
def stat (path : String) (fs : SimFS) : Except Error FileInfo × SimFS :=
  match fs.kind path with
  | some isDir => (Except.ok ⟨isDir⟩, fs)
  | none => (Except.error (Error.errno ENOENT), fs)

/-- The walk of `filepath.EvalSymlinks` through the elements of a path, from
the directory `cur`: an element, also `..`, is entered only from a directory
that exists. The result is the place reached. -/
def walk (fs : SimFS) : String → List (List Char) → Except Error String
  | cur, [] => Except.ok cur
  | cur, e :: es =>
    match fs.kind cur with
    | some true => walk fs (filepath.Join [cur, String.mk e]) es
    | some false => Except.error (Error.errno ENOTDIR)
    | none => Except.error (Error.errno ENOENT)

/-- Model of `filepath.EvalSymlinks` without symbolic links: the path is walked
element by element from the working directory, and when every directory on
the way and the place reached exist, the result is the clean form of the path. -/
def evalSymlinks (path : String) (fs : SimFS) : Except Error String × SimFS :=
  match walk fs "/" (filepath.elements path.data) with
  | Except.error e => (Except.error e, fs)
  | Except.ok place =>
    match fs.kind place with
    | some _ => (Except.ok (filepath.Clean path), fs)
    | none => (Except.error (Error.errno ENOENT), fs)

/-- Model of `os.Mkdir`: `EEXIST` when the path exists. -/
def mkdir (path : String) (_perm : Nat) (fs : SimFS) : Option Error × SimFS :=
  if path = "" then (some (Error.errno ENOENT), fs)
  else
    match fs.kind path with
    | some _ => (some (Error.errno EEXIST), fs)
    | none => create fs path true

/-- Model of `os.MkdirAll`: nothing to do when the path is a directory, `ENOTDIR` when
it is a file, and otherwise the creation of the missing ancestors followed by
that of the path. -/
def mkdirAll (path : String) (_perm : Nat) (fs : SimFS) : Option Error × SimFS :=
  if path = "" then (some (Error.errno ENOENT), fs)
  else
    match fs.kind path with
    | some true => (none, fs)
    | some false => (some (Error.errno ENOTDIR), fs)
    | none =>
      match makeDirs (ancestors (abs path)) fs.nodes with
      | (some e, nodes) => (some e, { fs with nodes := nodes })
      | (none, nodes) =>
        match find (abs path) nodes with
        | some true => (none, { fs with nodes := nodes })
        | some false => (some (Error.errno ENOTDIR), { fs with nodes := nodes })
        | none => (none, { fs with nodes := nodes ++ [(abs path, true)] })

/-- Model of `os.OpenFile`: a directory cannot be opened with `O_CREATE`; a file that
exists is opened as it is; an absent path is created as an empty file when
`O_CREATE` is set. The descriptor is always 3. -/
def openFile (path : String) (flag _perm : Nat) (fs : SimFS) : Except Error Nat × SimFS :=
  if path = "" then (Except.error (Error.errno ENOENT), fs)
  else
    match fs.kind path with
    | some true =>
      if flag &&& O_CREATE ≠ 0 then (Except.error (Error.errno EISDIR), fs) else (Except.ok 3, fs)
    | some false => (Except.ok 3, fs)
    | none =>
      if flag &&& O_CREATE ≠ 0 then
        match create fs path false with
        | (some e, fs1) => (Except.error e, fs1)
        | (none, fs1) => (Except.ok 3, fs1)
      else (Except.error (Error.errno ENOENT), fs)

/-- The characters with which the clean paths below the directory `a` start. -/
def dirPrefix (a : String) : List Char :=
  if a = "/" then [filepath.Separator] else a.data ++ [filepath.Separator]

/-- What is left of `l` after the characters of `pre`, when `l` starts with them. -/
def dropPrefix : List Char → List Char → Option (List Char)
  | [], l => some l
  | _ :: _, [] => none
  | c :: cs, d :: ds => if c = d then dropPrefix cs ds else none

/-- The part of the clean path `p` after the directory `a`, when `p` lies below `a`. -/
def relative (a p : String) : Option (List Char) :=
  match dropPrefix (dirPrefix a) p.data with
  | some (c :: rest) => some (c :: rest)
  | _ => none

/-- Whether the clean path `p` lies below the directory `a`. -/
def below (a p : String) : Bool := (relative a p).isSome

/-- The path with the part `rest` below the directory `b`. -/
def rebase (b : String) (rest : List Char) : String := String.mk (dirPrefix b ++ rest)

/-- The mounts below `source`, moved below `target`: what a recursive bind
mount copies besides the mount of the source itself. -/
def subMounts (source target : String) : List (String × String) → List (String × String)
  | [] => []
  | (t, s) :: rest =>
    match relative source t with
    | some part => (rebase target part, s) :: subMounts source target rest
    | none => subMounts source target rest

/-- The error with which the model rejects a mount: the target has to exist;
for a bind mount the source has to exist and both are directories or both
are files; for any other mount the target is a directory. -/
def mountCheck (fs : SimFS) (source target : String) (flags : Nat) : Option Error :=
  match fs.kind target with
  | none => some (Error.errno ENOENT)
  | some t =>
    if flags &&& 0x1000 ≠ 0 then
      match fs.kind source with
      | none => some (Error.errno ENOENT)
      | some s => if s = t then none else some (Error.errno ENOTDIR)
    else if t = true then none else some (Error.errno ENOTDIR)

/-- The entries a mount adds on top of the mount table: the mount itself and,
above it, for a bind mount with `MS_REC`, the copies of the mounts below the
source. -/
def newMounts (fs : SimFS) (source target : String) (flags : Nat) : List (String × String) :=
  if flags &&& 0x1000 ≠ 0 then
    (if flags &&& 0x4000 ≠ 0 then subMounts (abs source) (abs target) fs.mounts else []) ++
      [(abs target, abs source)]
  else [(abs target, source)]

/-- Model of `syscall.Mount`: a mount that the model does not reject and the
kernel does not refuse is put on top of the mount table, with the copies of
the mounts below the source when it is a recursive bind mount. The nodes are
not changed. -/
def mount (source target _fstype : String) (flags : Nat) (_data : String) (fs : SimFS) :
    Option Error × SimFS :=
  match mountCheck fs source target flags with
  | some e => (some e, fs)
  | none =>
    match fs.refusals with
    | some e :: rest => (some e, { fs with refusals := rest })
    | none :: rest =>
      (none, { fs with mounts := newMounts fs source target flags ++ fs.mounts, refusals := rest })
    | [] => (none, { fs with mounts := newMounts fs source target flags ++ fs.mounts })

/-- Removal of the most recent mount on the path `a` from a mount table:
`EBUSY` when a more recent mount lies below `a`, `EINVAL` when nothing is
mounted on `a`. -/
def popMount (a : String) : List (String × String) → Except Error (List (String × String))
  | [] => Except.error (Error.errno EINVAL)
  | (t, s) :: rest =>
    if t = a then Except.ok rest
    else if below a t = true then Except.error (Error.errno EBUSY)
    else
      match popMount a rest with
      | Except.ok rest2 => Except.ok ((t, s) :: rest2)
      | Except.error e => Except.error e

/-- Model of `syscall.Unmount` with flags 0: `ENOENT` for a path that does not
exist, `EINVAL` when nothing is mounted on it, `EBUSY` when the mount has
mounts below it; otherwise the kernel can refuse (a mount in use), and when it
does not the most recent mount on the path is removed from the mount table.
The nodes are not changed. -/
def unmount (target : String) (_flags : Nat) (fs : SimFS) : Option Error × SimFS :=
  match fs.kind target with
  | none => (some (Error.errno ENOENT), fs)
  | some _ =>
    if fs.mounts.all (fun m => m.1 ≠ abs target) = true then (some (Error.errno EINVAL), fs)
    else
      match popMount (abs target) fs.mounts with
      | Except.error e => (some e, fs)
      | Except.ok table =>
        match fs.refusals with
        | some e :: rest => (some e, { fs with refusals := rest })
        | none :: rest => (none, { fs with mounts := table, refusals := rest })
        | [] => (none, { fs with mounts := table })

/-- Whether something is mounted on the path `p` or below it. -/
def holdsMount (fs : SimFS) (p : String) : Bool :=
  fs.mounts.any (fun m => m.1 = p || below p m.1)

/-- Whether the node at `p` goes when the tree at `a` is removed: it is `a`
or lies below it, and nothing is mounted on it or below it. -/
def removable (fs : SimFS) (a p : String) : Bool :=
  (p = a || below a p) && !holdsMount fs p

/-- Model of `os.RemoveAll`: nothing to do for the empty path; otherwise the
path and what lies below it are removed, apart from the mount points and the
directories that hold one, which stay with the error `EBUSY`, as does the root
directory. -/
def removeAll (path : String) (fs : SimFS) : Option Error × SimFS :=
  if path = "" then (none, fs)
  else
    (if abs path = "/" ∨
        fs.nodes.any (fun n => (n.1 = abs path || below (abs path) n.1) && holdsMount fs n.1) = true
      then some (Error.errno EBUSY) else none,
      { fs with nodes := fs.nodes.filter (fun n => !removable fs (abs path) n.1) })

/-- Model of `ioutil.ReadDir`: the names of the nodes whose parent is the directory. -/
def readDir (path : String) (fs : SimFS) : Except Error (List String) × SimFS :=
  match fs.kind path with
  | some true =>
    (Except.ok ((fs.nodes.filter (fun n => abs (parent n.1) = abs path)).map
      (fun n => filepath.Base n.1)), fs)
  | some false => (Except.error (Error.errno ENOTDIR), fs)
  | none => (Except.error (Error.errno ENOENT), fs)

/-- Model of `ioutil.WriteFile`: the file is created when it is absent. -/
def writeFile (path _data : String) (_perm : Nat) (fs : SimFS) : Option Error × SimFS :=
  if path = "" then (some (Error.errno ENOENT), fs)
  else
    match fs.kind path with
    | some true => (some (Error.errno EISDIR), fs)
    | some false => (none, fs)
    | none => create fs path false

/-- The environment of the file system. No udev event arrives and external
commands print nothing. -/
def os : OS SimFS where
  stat := stat
  evalSymlinks := evalSymlinks
  mkdirAll := mkdirAll
  mkdir := mkdir
  openFile := openFile
  close _ fs := fs
  mount := mount
  unmount := unmount
  removeAll := removeAll
  readDir := readDir
  writeFile := writeFile
  udevFilter _ _ fs := (none, fs)
  udevChan fs := (([], false), fs)
  combinedOutput _ _ fs := (("", none), fs)

end SimFS

/-- A guest with the directory `/src` and the file `/etc/hosts`, and nothing mounted. -/
def smallFS : SimFS := ⟨[("/src", true), ("/etc", true), ("/etc/hosts", false)], [], []⟩

/-- A guest in which the root of container `c1` is mounted: the disk `/dev/sda`
on `/tmp/hyper/c1/root`, and the inner root `rootfs` on itself. -/
def mountedFS : SimFS :=
  ⟨[("/dev", true), ("/dev/sda", false), ("/tmp", true), ("/tmp/hyper", true),
      ("/tmp/hyper/c1", true), ("/tmp/hyper/c1/root", true),
      ("/tmp/hyper/c1/root/rootfs", true), ("/tmp/hyper/c1/root/rootfs/bin", true)],
    [("/tmp/hyper/c1/root/rootfs", "/tmp/hyper/c1/root/rootfs"),
      ("/tmp/hyper/c1/root", "/dev/sda")],
    []⟩

/-! ## Kinds of calls -/

/-- The call is the mount system call. -/
def Call.isMount : Call → Bool
  | Call.mount _ _ _ _ _ => true
  | _ => false

/-- The call belongs to a rescan of the SCSI bus: only `scanSCSIBus` lists a
directory other than a disk directory or writes a file. -/
def Call.isScan : Call → Bool
  | Call.readDir path => path = "/sys/class/scsi_host"
  | Call.writeFile _ _ _ => true
  | _ => false

/-- The call belongs to the udev monitor. -/
def Call.isUdev : Call → Bool
  | Call.udevFilter _ _ => true
  | Call.udevChan => true
  | Call.udevEvent _ => true
  | Call.udevCancel => true
  | _ => false

/-- The call prepares a mount point or looks at a path. -/
def Call.isSetup : Call → Bool
  | Call.stat _ => true
  | Call.evalSymlinks _ => true
  | Call.mkdirAll _ _ => true
  | Call.mkdir _ _ => true
  | Call.openFile _ _ _ => true
  | Call.close _ => true
  | _ => false

/-! ## Lemmas on the log -/

section LogLemmas

variable {σ : Type} (os : OS σ)

theorem ensureDestinationExists_log (source destination fsType : String) (w : World σ) :
    ∃ calls, (ensureDestinationExists os source destination fsType w).2.log = w.log ++ calls ∧
      ∀ c ∈ calls, c.isSetup = true := by
  unfold ensureDestinationExists
  simp only [doStat, doMkdirAll, doMkdir, doOpenFile, doClose]
  rcases os.stat source w.st with ⟨_ | fi, s1⟩
  · exact ⟨[Call.stat source], by simp, by simp [Call.isSetup]⟩
  · simp only []
    rcases os.mkdirAll (filepath.Split destination).1 mountPerm s1 with ⟨_ | e, s2⟩
    · simp only []
      split
      · rcases os.mkdir destination mountPerm s2 with ⟨e, s3⟩
        refine ⟨[Call.stat source, Call.mkdirAll (filepath.Split destination).1 mountPerm,
          Call.mkdir destination mountPerm], ?_, by simp [Call.isSetup]⟩
        split <;> simp
      · rcases os.openFile destination O_CREATE mountPerm s2 with ⟨e | f, s3⟩
        · exact ⟨[Call.stat source, Call.mkdirAll (filepath.Split destination).1 mountPerm,
            Call.openFile destination O_CREATE mountPerm], by simp, by simp [Call.isSetup]⟩
        · exact ⟨[Call.stat source, Call.mkdirAll (filepath.Split destination).1 mountPerm,
            Call.openFile destination O_CREATE mountPerm, Call.close f], by simp,
            by simp [Call.isSetup]⟩
    · exact ⟨[Call.stat source, Call.mkdirAll (filepath.Split destination).1 mountPerm],
        by simp, by simp [Call.isSetup]⟩

/-- The calls of `mount`: those of the preparation, then at most one mount
system call, whose arguments are fixed by the arguments of `mount`. -/
theorem mount_log (source destination fsType : String) (flags : Int) (w : World σ) :
    ∃ calls, (mount os source destination fsType flags w).2.log = w.log ++ calls ∧
      ∀ c ∈ calls, c.isSetup = true ∨
        ∃ absSource, (os.evalSymlinks source w.st).1 = Except.ok absSource ∧
          c = Call.mount absSource destination fsType (uintptr flags)
            (if fsType = "xfs" then "nouuid" else "") := by
  unfold mount
  simp only [doEvalSymlinks, doMount]
  rcases hev : os.evalSymlinks source w.st with ⟨_ | absSource, s1⟩
  · exact ⟨[Call.evalSymlinks source], by simp, by simp [Call.isSetup]⟩
  · simp only []
    obtain ⟨l, hl, hset⟩ := ensureDestinationExists_log os absSource destination fsType
      ⟨s1, w.log ++ [Call.evalSymlinks source]⟩
    rcases hen : ensureDestinationExists os absSource destination fsType
      ⟨s1, w.log ++ [Call.evalSymlinks source]⟩ with ⟨_ | e, w2⟩
    · rw [hen] at hl
      simp only [] at hl ⊢
      have key : ∀ c ∈ Call.evalSymlinks source :: l ++ [Call.mount absSource destination fsType
          (uintptr flags) (if fsType = "xfs" then "nouuid" else "")], c.isSetup = true ∨
          ∃ a, Except.ok absSource = (Except.ok a : Except Error String) ∧
            c = Call.mount a destination fsType (uintptr flags)
              (if fsType = "xfs" then "nouuid" else "") := by
        intro c hc
        simp only [List.cons_append, List.mem_cons, List.mem_append, List.mem_singleton,
          List.not_mem_nil, or_false] at hc
        rcases hc with rfl | hc | rfl
        · left; rfl
        · left; exact hset c hc
        · right; exact ⟨absSource, rfl, rfl⟩
      rcases os.mount absSource destination fsType (uintptr flags)
        (if fsType = "xfs" then "nouuid" else "") w2.st with ⟨_ | e, s3⟩
      · exact ⟨_, by simp [hl], key⟩
      · exact ⟨_, by simp [hl], key⟩
    · rw [hen] at hl
      simp only [] at hl ⊢
      refine ⟨Call.evalSymlinks source :: l, by simp [hl], ?_⟩
      intro c hc
      simp only [List.mem_cons] at hc
      rcases hc with rfl | hc
      · left; rfl
      · left; exact hset c hc

/-- A `mount` that returns no error ends with the mount system call. -/
theorem mount_ok_log (source destination fsType : String) (flags : Int) (w w' : World σ)
    (h : mount os source destination fsType flags w = (none, w')) :
    ∃ absSource calls, (os.evalSymlinks source w.st).1 = Except.ok absSource ∧
      w'.log = w.log ++ calls ++ [Call.mount absSource destination fsType (uintptr flags)
        (if fsType = "xfs" then "nouuid" else "")] ∧
      ∀ c ∈ calls, c.isSetup = true := by
  unfold mount at h
  simp only [doEvalSymlinks, doMount] at h
  rcases hev : os.evalSymlinks source w.st with ⟨_ | absSource, s1⟩
  · simp [hev] at h
  · simp only [hev] at h
    obtain ⟨l, hl, hset⟩ := ensureDestinationExists_log os absSource destination fsType
      ⟨s1, w.log ++ [Call.evalSymlinks source]⟩
    rcases hen : ensureDestinationExists os absSource destination fsType
      ⟨s1, w.log ++ [Call.evalSymlinks source]⟩ with ⟨_ | e, w2⟩
    · rw [hen] at hl h
      simp only [] at hl h
      rcases hm : os.mount absSource destination fsType (uintptr flags)
        (if fsType = "xfs" then "nouuid" else "") w2.st with ⟨_ | e, s3⟩
      · simp only [hm, Prod.mk.injEq, true_and] at h
        refine ⟨absSource, Call.evalSymlinks source :: l, rfl, ?_, ?_⟩
        · rw [← h]; simp [hl]
        · intro c hc
          simp only [List.mem_cons] at hc
          rcases hc with rfl | hc
          · rfl
          · exact hset c hc
      · simp [hm] at h
    · rw [hen] at h
      simp at h

/-- A call that prepares a mount point is no mount, no rescan and no udev call. -/
theorem isSetup_kinds (c : Call) (h : c.isSetup = true) :
    c.isMount = false ∧ c.isScan = false ∧ c.isUdev = false := by
  cases c <;> simp_all [Call.isSetup, Call.isMount, Call.isScan, Call.isUdev]

theorem scanHosts_log (scsiHostPath : String) (files : List String) (w : World σ) :
    ∃ calls, (scanHosts os scsiHostPath files w).2.log = w.log ++ calls ∧
      ∀ c ∈ calls, c.isMount = false := by
  induction files generalizing w with
  | nil => exact ⟨[], by simp [scanHosts], by simp⟩
  | cons host files ih =>
    unfold scanHosts
    simp only [doWriteFile]
    rcases os.writeFile (filepath.Join [scsiHostPath, host, "scan"]) "0 0 0" 0o666 w.st
      with ⟨_ | e, s1⟩
    · simp only []
      obtain ⟨l, hl, hk⟩ := ih ⟨s1, w.log ++
        [Call.writeFile (filepath.Join [scsiHostPath, host, "scan"]) "0 0 0" 0o666]⟩
      refine ⟨Call.writeFile (filepath.Join [scsiHostPath, host, "scan"]) "0 0 0" 0o666 :: l,
        by simp [hl], ?_⟩
      intro c hc
      simp only [List.mem_cons] at hc
      rcases hc with rfl | hc
      · rfl
      · exact hk c hc
    · exact ⟨[Call.writeFile (filepath.Join [scsiHostPath, host, "scan"]) "0 0 0" 0o666],
        by simp, by simp [Call.isMount]⟩

/-- The calls of `scanSCSIBus` include no mount. -/
theorem scanSCSIBus_log (w : World σ) :
    ∃ calls, (scanSCSIBus os w).2.log = w.log ++ calls ∧ ∀ c ∈ calls, c.isMount = false := by
  unfold scanSCSIBus
  simp only [doStat, doReadDir]
  rcases os.stat "/sys/class/scsi_host" w.st with ⟨_ | info, s1⟩
  · exact ⟨[Call.stat "/sys/class/scsi_host"], by simp, by simp [Call.isMount]⟩
  · simp only []
    rcases os.readDir "/sys/class/scsi_host" s1 with ⟨_ | files, s2⟩
    · exact ⟨[Call.stat "/sys/class/scsi_host", Call.readDir "/sys/class/scsi_host"],
        by simp, by simp [Call.isMount]⟩
    · simp only []
      obtain ⟨l, hl, hk⟩ := scanHosts_log os "/sys/class/scsi_host" files
        ⟨s2, w.log ++ [Call.stat "/sys/class/scsi_host", Call.readDir "/sys/class/scsi_host"]⟩
      refine ⟨Call.stat "/sys/class/scsi_host" :: Call.readDir "/sys/class/scsi_host" :: l,
        by simp [hl], ?_⟩
      intro c hc
      simp only [List.mem_cons] at hc
      rcases hc with rfl | rfl | hc
      · rfl
      · rfl
      · exact hk c hc

theorem listenForDevice_log (deviceName : String) (isSCSI : Bool) (w : World σ) :
    ∃ calls, (listenForDevice os deviceName isSCSI w).2.log = w.log ++ calls ∧
      ∀ c ∈ calls, c.isMount = false ∧ c.isScan = false := by
  unfold listenForDevice
  simp only [doUdevFilter, doUdevChan, doStat]
  rcases os.udevFilter "block" "disk" w.st with ⟨_ | e, s2⟩
  · simp only []
    rcases os.udevChan s2 with ⟨⟨ch, closed⟩, s3⟩
    simp only []
    rcases os.stat (filepath.Join [devPath, deviceName]) s3 with ⟨_ | info, s4⟩
    · simp only []
      refine ⟨[Call.udevFilter "block" "disk", Call.udevChan,
        Call.stat (filepath.Join [devPath, deviceName])] ++
        (listenLoop deviceName isSCSI ch).1.map Call.udevEvent ++ [Call.udevCancel], ?_, ?_⟩
      · split <;> simp
      · intro c hc
        simp only [List.cons_append, List.nil_append, List.mem_cons, List.mem_append,
          List.mem_map, List.mem_singleton, List.not_mem_nil, or_false] at hc
        rcases hc with rfl | rfl | rfl | ⟨e, _, rfl⟩ | rfl <;> simp [Call.isMount, Call.isScan]
    · exact ⟨[Call.udevFilter "block" "disk", Call.udevChan,
        Call.stat (filepath.Join [devPath, deviceName]), Call.udevCancel], by simp,
        by simp [Call.isMount, Call.isScan]⟩
  · exact ⟨[Call.udevFilter "block" "disk"], by simp, by simp [Call.isMount, Call.isScan]⟩

/-- The calls of `waitForBlockDevice` are `stat` and udev calls: no mount and
no rescan. -/
theorem waitForBlockDevice_log (deviceName : String) (isSCSI : Bool) (w : World σ) :
    ∃ calls, (waitForBlockDevice os deviceName isSCSI w).2.log = w.log ++ calls ∧
      ∀ c ∈ calls, c.isMount = false ∧ c.isScan = false := by
  have stat_then : ∀ path : String, ∃ calls,
      (match doStat os path w with
        | (Except.ok _, w1) => ((none : Option Error), w1)
        | (Except.error _, w1) => listenForDevice os deviceName isSCSI w1).2.log
        = w.log ++ calls ∧
      ∀ c ∈ calls, c.isMount = false ∧ c.isScan = false := by
    intro path
    simp only [doStat]
    rcases os.stat path w.st with ⟨_ | info, s1⟩
    · simp only []
      obtain ⟨l, hl, hk⟩ := listenForDevice_log os deviceName isSCSI
        ⟨s1, w.log ++ [Call.stat path]⟩
      refine ⟨Call.stat path :: l, by simp [hl], ?_⟩
      intro c hc
      simp only [List.mem_cons] at hc
      rcases hc with rfl | hc
      · simp [Call.isMount, Call.isScan]
      · exact hk c hc
    · exact ⟨[Call.stat path], by simp, by simp [Call.isMount, Call.isScan]⟩
  unfold waitForBlockDevice
  simp only []
  split
  · exact stat_then _
  · exact stat_then _

/-- The calls of `findSCSIDisk` are the `stat` and the listing of the
directory of the address. -/
theorem findSCSIDisk_log (scsiAddr : String) (w : World σ) :
    ∃ calls, (findSCSIDisk os scsiAddr w).2.log = w.log ++ calls ∧
      ∀ c ∈ calls, c = Call.stat (scsiDiskPath scsiAddr) ∨
        c = Call.readDir (scsiDiskPath scsiAddr) := by
  unfold findSCSIDisk
  simp only [doStat, doReadDir]
  rcases os.stat (scsiDiskPath scsiAddr) w.st with ⟨_ | info, s1⟩
  · exact ⟨[Call.stat (scsiDiskPath scsiAddr)], by simp, by simp⟩
  · simp only []
    rcases os.readDir (scsiDiskPath scsiAddr) s1 with ⟨_ | files, s2⟩
    · exact ⟨[Call.stat (scsiDiskPath scsiAddr), Call.readDir (scsiDiskPath scsiAddr)],
        by simp, by simp⟩
    · refine ⟨[Call.stat (scsiDiskPath scsiAddr), Call.readDir (scsiDiskPath scsiAddr)],
        ?_, by simp⟩
      simp only []
      split
      · simp
      · split <;> simp

theorem filter_isMount_nil (l : List Call) (h : ∀ c ∈ l, c.isMount = false) :
    l.filter Call.isMount = [] := by
  rw [List.filter_eq_nil_iff]
  intro c hc
  simp [h c hc]

/-- The log after a `bindMount` that returns no error. -/
theorem bindMount_ok_log (source destination : String) (recursive : Bool) (w w' : World σ)
    (h : bindMount os source destination recursive w = (none, w')) :
    ∃ absSource calls, (os.evalSymlinks source w.st).1 = Except.ok absSource ∧
      w'.log = w.log ++ calls ++ [Call.mount absSource destination "bind"
        (if recursive = true then 0x5000 else 0x1000) ""] ∧
      ∀ c ∈ calls, c.isSetup = true := by
  unfold bindMount at h
  obtain ⟨absSource, calls, h1, h2, h3⟩ := mount_ok_log os source destination "bind" _ w w' h
  refine ⟨absSource, calls, h1, ?_, h3⟩
  rw [h2]
  cases recursive <;> rfl

/-- What a successful `ensureDestinationExists` has done, on the state of the
environment. -/
theorem ensureDestinationExists_ok_inv (source destination fsType : String) (w w' : World σ)
    (h : ensureDestinationExists os source destination fsType w = (none, w')) :
    ∃ info, (os.stat source w.st).1 = Except.ok info ∧
      (os.mkdirAll (filepath.Split destination).1 mountPerm (os.stat source w.st).2).1 = none ∧
      (((fsType ≠ "bind" ∨ info.isDir = true) ∧
          w'.st = (os.mkdir destination mountPerm
            (os.mkdirAll (filepath.Split destination).1 mountPerm (os.stat source w.st).2).2).2 ∧
          ((os.mkdir destination mountPerm
              (os.mkdirAll (filepath.Split destination).1 mountPerm
                (os.stat source w.st).2).2).1 = none ∨
            isExist (os.mkdir destination mountPerm
              (os.mkdirAll (filepath.Split destination).1 mountPerm
                (os.stat source w.st).2).2).1 = true)) ∨
        (¬ (fsType ≠ "bind" ∨ info.isDir = true) ∧
          ∃ file, (os.openFile destination O_CREATE mountPerm
              (os.mkdirAll (filepath.Split destination).1 mountPerm
                (os.stat source w.st).2).2).1 = Except.ok file ∧
            w'.st = os.close file (os.openFile destination O_CREATE mountPerm
              (os.mkdirAll (filepath.Split destination).1 mountPerm
                (os.stat source w.st).2).2).2)) := by
  unfold ensureDestinationExists at h
  simp only [doStat, doMkdirAll, doMkdir, doOpenFile, doClose] at h
  rcases hs : os.stat source w.st with ⟨_ | info, s1⟩
  · simp [hs] at h
  · simp only [hs] at h ⊢
    rcases hp : os.mkdirAll (filepath.Split destination).1 mountPerm s1 with ⟨_ | e, s2⟩
    · simp only [hp] at h ⊢
      refine ⟨info, rfl, trivial, ?_⟩
      by_cases hc : fsType ≠ "bind" ∨ info.isDir = true
      · left
        rw [if_pos hc] at h
        rcases hm : os.mkdir destination mountPerm s2 with ⟨r, s3⟩
        simp only [hm] at h ⊢
        by_cases hx : isExist r = true
        · simp only [hx, Bool.not_true, Bool.false_eq_true, if_false, Prod.mk.injEq,
            true_and] at h
          exact ⟨hc, by rw [← h], Or.inr hx⟩
        · simp only [Bool.not_eq_true] at hx
          simp only [hx, Bool.not_false, if_true, Prod.mk.injEq] at h
          exact ⟨hc, by rw [← h.2], Or.inl h.1⟩
      · right
        rw [if_neg hc] at h
        rcases ho : os.openFile destination O_CREATE mountPerm s2 with ⟨_ | file, s3⟩
        · simp [ho] at h
        · simp only [ho, Prod.mk.injEq, true_and] at h
          exact ⟨hc, file, rfl, by rw [← h]⟩
    · simp [hp] at h

end LogLemmas

/-! ## Teardown of a container root (C4) -/

section Teardown

variable {σ : Type} (os : OS σ)

/-- C4 as the code has it: `unmountContainerRootFs` unmounts `mountingPath`,
then `<containerMountDest>/<containerID>/root`, then removes the tree at that
same path `<containerMountDest>/<containerID>/root`, in this order. When the
first unmount fails, its error is the result, it is the only call made and
the state is the one it left; when the second fails, its error is the result,
no removal is made and the state is the one the second unmount left; when both
succeed, the result and the state are those of the removal, made on the state
that the second unmount left. -/
theorem unmountContainerRootFs_teardown (cfg : Config) (containerID mountingPath : String)
    (w : World σ) :
    containerRoot cfg containerID = filepath.Join [cfg.containerMountDest, containerID, "root"] ∧
    (∀ e, (os.unmount mountingPath 0 w.st).1 = some e →
      unmountContainerRootFs os cfg containerID mountingPath w =
        (some e, ⟨(os.unmount mountingPath 0 w.st).2, w.log ++ [Call.unmount mountingPath 0]⟩)) ∧
    ((os.unmount mountingPath 0 w.st).1 = none →
      (∀ e, (os.unmount (containerRoot cfg containerID) 0 (os.unmount mountingPath 0 w.st).2).1
          = some e →
        unmountContainerRootFs os cfg containerID mountingPath w =
          (some e,
            ⟨(os.unmount (containerRoot cfg containerID) 0 (os.unmount mountingPath 0 w.st).2).2,
              w.log ++ [Call.unmount mountingPath 0,
                Call.unmount (containerRoot cfg containerID) 0]⟩)) ∧
      ((os.unmount (containerRoot cfg containerID) 0 (os.unmount mountingPath 0 w.st).2).1
          = none →
        unmountContainerRootFs os cfg containerID mountingPath w =
          ((os.removeAll (containerRoot cfg containerID)
              (os.unmount (containerRoot cfg containerID) 0
                (os.unmount mountingPath 0 w.st).2).2).1,
            ⟨(os.removeAll (containerRoot cfg containerID)
                (os.unmount (containerRoot cfg containerID) 0
                  (os.unmount mountingPath 0 w.st).2).2).2,
              w.log ++ [Call.unmount mountingPath 0,
                Call.unmount (containerRoot cfg containerID) 0,
                Call.removeAll (containerRoot cfg containerID)]⟩))) := by
  refine ⟨rfl, ?_⟩
  unfold unmountContainerRootFs containerRoot
  simp only [doUnmount, doRemoveAll]
  rcases os.unmount mountingPath 0 w.st with ⟨_ | e1, s1⟩
  · simp only []
    rcases os.unmount (filepath.Join [cfg.containerMountDest, containerID, "root"]) 0 s1
      with ⟨_ | e2, s2⟩
    · simp
    · simp
  · simp

end Teardown

/-- C4 on concrete runs, on a guest where a disk is mounted on
`/tmp/hyper/c1/root` and `/tmp/hyper/c1/root/rootfs` is bound onto itself.
The unmount of `/tmp/hyper/c1/root` as the inner path is refused because of
the mount below it: one call, nothing changed. When the kernel refuses the
second unmount: two calls, no removal, the inner mount gone. Otherwise: the
two unmounts and the removal. -/
theorem unmountContainerRootFs_teardown_witness :
    unmountContainerRootFs SimFS.os testConfig "c1" "/tmp/hyper/c1/root" ⟨mountedFS, []⟩
      = (some (Error.errno EBUSY), ⟨mountedFS, [Call.unmount "/tmp/hyper/c1/root" 0]⟩) ∧
    unmountContainerRootFs SimFS.os testConfig "c1" "/tmp/hyper/c1/root/rootfs"
        ⟨{ mountedFS with refusals := [none, some (Error.errno EBUSY)] }, []⟩
      = (some (Error.errno EBUSY),
          ⟨{ mountedFS with mounts := [("/tmp/hyper/c1/root", "/dev/sda")] },
            [Call.unmount "/tmp/hyper/c1/root/rootfs" 0, Call.unmount "/tmp/hyper/c1/root" 0]⟩) ∧
    (unmountContainerRootFs SimFS.os testConfig "c1" "/tmp/hyper/c1/root/rootfs"
        ⟨mountedFS, []⟩).2.log
      = [Call.unmount "/tmp/hyper/c1/root/rootfs" 0, Call.unmount "/tmp/hyper/c1/root" 0,
          Call.removeAll "/tmp/hyper/c1/root"] := by
  have h1 := (unmountContainerRootFs_teardown SimFS.os testConfig "c1" "/tmp/hyper/c1/root"
    ⟨mountedFS, []⟩).2.1 (Error.errno EBUSY) (by decide)
  have h2 := ((unmountContainerRootFs_teardown SimFS.os testConfig "c1"
    "/tmp/hyper/c1/root/rootfs"
    ⟨{ mountedFS with refusals := [none, some (Error.errno EBUSY)] }, []⟩).2.2
      (by decide)).1 (Error.errno EBUSY) (by decide)
  have h3 := ((unmountContainerRootFs_teardown SimFS.os testConfig "c1"
    "/tmp/hyper/c1/root/rootfs" ⟨mountedFS, []⟩).2.2 (by decide)).2 (by decide)
  refine ⟨?_, ?_, ?_⟩
  · rw [h1]
    decide
  · rw [h2]
    decide
  · rw [h3]
    decide

/-- C4 fails as stated: on a guest where the container `c1` is mounted, the
teardown succeeds with its three calls and removes `/tmp/hyper/c1/root` with
what is below it, and the directory `/tmp/hyper/c1` of the container is
still there afterwards. -/
theorem unmountContainerRootFs_leaves_container_directory_counterexample :
    mountedFS.kind "/tmp/hyper/c1" = some true ∧
    mountedFS.kind "/tmp/hyper/c1/root" = some true ∧
    (unmountContainerRootFs SimFS.os testConfig "c1" "/tmp/hyper/c1/root/rootfs"
        ⟨mountedFS, []⟩).1 = none ∧
    (unmountContainerRootFs SimFS.os testConfig "c1" "/tmp/hyper/c1/root/rootfs"
        ⟨mountedFS, []⟩).2.log
      = [Call.unmount "/tmp/hyper/c1/root/rootfs" 0, Call.unmount "/tmp/hyper/c1/root" 0,
          Call.removeAll "/tmp/hyper/c1/root"] ∧
    (unmountContainerRootFs SimFS.os testConfig "c1" "/tmp/hyper/c1/root/rootfs"
        ⟨mountedFS, []⟩).2.st
      = ⟨[("/dev", true), ("/dev/sda", false), ("/tmp", true), ("/tmp/hyper", true),
          ("/tmp/hyper/c1", true)], [], []⟩ ∧
    (unmountContainerRootFs SimFS.os testConfig "c1" "/tmp/hyper/c1/root/rootfs"
        ⟨mountedFS, []⟩).2.st.kind "/tmp/hyper/c1/root" = none ∧
    (unmountContainerRootFs SimFS.os testConfig "c1" "/tmp/hyper/c1/root/rootfs"
        ⟨mountedFS, []⟩).2.st.kind "/tmp/hyper/c1" = some true := by
  decide

/-! ## Resolution of a SCSI address (C7, C10) -/

section Resolver

variable {σ : Type} (os : OS σ)

/-- C7: `findSCSIDisk` looks only at the directory
`/sys/class/scsi_disk/0:0:<scsiAddr>/device/block`: every call it makes is a
`stat` or a listing of that path. When the directory is absent (its `stat`
fails) the result is that error with an empty name; when it lists two or more
entries the result is an error with an empty name; when it lists exactly one
entry the result is that entry with no error. -/
theorem findSCSIDisk_spec (scsiAddr : String) (w : World σ) :
    scsiDiskPath scsiAddr = "/sys/class/scsi_disk/0:0:" ++ scsiAddr ++ "/device/block" ∧
    (∃ calls, (findSCSIDisk os scsiAddr w).2.log = w.log ++ calls ∧
      ∀ c ∈ calls, c = Call.stat (scsiDiskPath scsiAddr) ∨
        c = Call.readDir (scsiDiskPath scsiAddr)) ∧
    (∀ e, (os.stat (scsiDiskPath scsiAddr) w.st).1 = Except.error e →
      (findSCSIDisk os scsiAddr w).1 = Outcome.returned ("", some e)) ∧
    (∀ info files, (os.stat (scsiDiskPath scsiAddr) w.st).1 = Except.ok info →
      (os.readDir (scsiDiskPath scsiAddr) (os.stat (scsiDiskPath scsiAddr) w.st).2).1
        = Except.ok files →
      (2 ≤ files.length → ∃ e, (findSCSIDisk os scsiAddr w).1 = Outcome.returned ("", some e)) ∧
      (∀ name, files = [name] →
        (findSCSIDisk os scsiAddr w).1 = Outcome.returned (name, none))) := by
  refine ⟨rfl, findSCSIDisk_log os scsiAddr w, ?_, ?_⟩
  · intro e he
    unfold findSCSIDisk
    simp only [doStat, doReadDir]
    rcases hs : os.stat (scsiDiskPath scsiAddr) w.st with ⟨r, s1⟩
    rw [hs] at he
    simp only [] at he
    subst he
    rfl
  · intro info files hstat hread
    unfold findSCSIDisk
    simp only [doStat, doReadDir]
    rcases hs : os.stat (scsiDiskPath scsiAddr) w.st with ⟨r, s1⟩
    rw [hs] at hstat hread
    simp only [] at hstat hread
    subst hstat
    simp only []
    rcases hr : os.readDir (scsiDiskPath scsiAddr) s1 with ⟨r2, s2⟩
    rw [hr] at hread
    simp only [] at hread
    subst hread
    simp only []
    refine ⟨?_, ?_⟩
    · intro hlen
      have : files.length > 1 := hlen
      exact ⟨_, by rw [if_pos this]⟩
    · intro name hname
      subst hname
      simp

/-- When the directory of the address exists and lists no entry,
`findSCSIDisk` does not return: the access `files[0]` panics. -/
theorem findSCSIDisk_empty_panics (scsiAddr : String) (w : World σ) (info : FileInfo)
    (hstat : (os.stat (scsiDiskPath scsiAddr) w.st).1 = Except.ok info)
    (hread : (os.readDir (scsiDiskPath scsiAddr) (os.stat (scsiDiskPath scsiAddr) w.st).2).1
      = Except.ok []) :
    (findSCSIDisk os scsiAddr w).1 = Outcome.panicked "runtime error: index out of range" := by
  unfold findSCSIDisk
  simp only [doStat, doReadDir]
  rcases hs : os.stat (scsiDiskPath scsiAddr) w.st with ⟨r, s1⟩
  rw [hs] at hstat hread
  simp only [] at hstat hread
  subst hstat
  simp only []
  rcases hr : os.readDir (scsiDiskPath scsiAddr) s1 with ⟨r2, s2⟩
  rw [hr] at hread
  simp only [] at hread
  subst hread
  simp

end Resolver

/-- C7 on concrete runs: address `2:0` with the directory absent, with the two
entries `sda` and `sdb`, and with the single entry `sda`. -/
theorem findSCSIDisk_spec_witness :
    (findSCSIDisk scenarioNoDisk.os "2:0" start).1
      = Outcome.returned ("", some (Error.errno ENOENT)) ∧
    (∃ e, (findSCSIDisk scenarioTwoDisks.os "2:0" start).1 = Outcome.returned ("", some e)) ∧
    (findSCSIDisk scenarioA.os "2:0" start).1 = Outcome.returned ("sda", none) :=
  ⟨(findSCSIDisk_spec scenarioNoDisk.os "2:0" start).2.2.1 (Error.errno ENOENT) (by decide),
   ((findSCSIDisk_spec scenarioTwoDisks.os "2:0" start).2.2.2 ⟨true⟩ ["sda", "sdb"]
      (by decide) (by decide)).1 (by decide),
   ((findSCSIDisk_spec scenarioA.os "2:0" start).2.2.2 ⟨true⟩ ["sda"]
      (by decide) (by decide)).2 "sda" rfl⟩

/-- C10 fails on the code: with the directory of address `2:0` present and
empty, `findSCSIDisk` reaches `files[0]` and panics with an index out of
range; it returns neither a name nor an error, and `mountContainerRootFs`
panics with it. -/
theorem findSCSIDisk_empty_directory_panics :
    (findSCSIDisk scenarioEmptyDir.os "2:0" start).1
      = Outcome.panicked "runtime error: index out of range" ∧
    (∀ r, (findSCSIDisk scenarioEmptyDir.os "2:0" start).1 ≠ Outcome.returned r) ∧
    (mountContainerRootFs scenarioEmptyDir.os testConfig "c1" "" "rootfs" "ext4" "2:0" start).1
      = Outcome.panicked "runtime error: index out of range" := by
  refine ⟨findSCSIDisk_empty_panics scenarioEmptyDir.os "2:0" start ⟨true⟩ (by decide) (by decide),
    ?_, by decide⟩
  intro r h
  rw [findSCSIDisk_empty_panics scenarioEmptyDir.os "2:0" start ⟨true⟩ (by decide) (by decide)] at h
  exact Outcome.noConfusion h

/-! ## Arguments of the mount system call (C9) -/

section MountArguments

variable {σ : Type} (os : OS σ)

/-- C9: every mount system call made by `mount source destination fsType flags`
has as source the result of resolving the symbolic links of `source`, the
given destination, the given `fsType`, the given flags (converted to
`uintptr`, which keeps every non-negative `int`), and the option string
`nouuid` when `fsType` is `xfs` and the empty string otherwise. A mount system
call made by `bindMount` has the type `bind`, the flags `MS_BIND`, with
`MS_REC` when recursive, and the empty option string. -/
theorem mount_syscall_arguments (source destination fsType : String) (flags : Int)
    (w : World σ) :
    (∃ calls, (mount os source destination fsType flags w).2.log = w.log ++ calls ∧
      ∀ s t f fl d, Call.mount s t f fl d ∈ calls →
        (os.evalSymlinks source w.st).1 = Except.ok s ∧ t = destination ∧ f = fsType ∧
        fl = uintptr flags ∧ d = (if fsType = "xfs" then "nouuid" else "")) ∧
    (0 ≤ flags → flags < 2 ^ 63 → (uintptr flags : Int) = flags) ∧
    (∀ recursive, ∃ calls,
      (bindMount os source destination recursive w).2.log = w.log ++ calls ∧
      ∀ s t f fl d, Call.mount s t f fl d ∈ calls →
        (os.evalSymlinks source w.st).1 = Except.ok s ∧ t = destination ∧ f = "bind" ∧
        fl = (if recursive = true then 0x1000 + 0x4000 else 0x1000) ∧ d = "") := by
  have main : ∀ (fsType : String) (flags : Int),
      ∃ calls, (mount os source destination fsType flags w).2.log = w.log ++ calls ∧
      ∀ s t f fl d, Call.mount s t f fl d ∈ calls →
        (os.evalSymlinks source w.st).1 = Except.ok s ∧ t = destination ∧ f = fsType ∧
        fl = uintptr flags ∧ d = (if fsType = "xfs" then "nouuid" else "") := by
    intro fsType flags
    obtain ⟨calls, hlog, hcalls⟩ := mount_log os source destination fsType flags w
    refine ⟨calls, hlog, ?_⟩
    intro s t f fl d hmem
    rcases hcalls _ hmem with hsetup | ⟨absSource, hres, heq⟩
    · simp [Call.isSetup] at hsetup
    · injection heq with h1 h2 h3 h4 h5
      subst h1
      exact ⟨hres, h2, h3, h4, h5⟩
  refine ⟨main fsType flags, ?_, ?_⟩
  · intro h0 h1
    unfold uintptr
    omega
  · intro recursive
    unfold bindMount
    obtain ⟨calls, hlog, hcalls⟩ :=
      main "bind" (if recursive = true then Int.lor MS_BIND MS_REC else MS_BIND)
    refine ⟨calls, hlog, ?_⟩
    intro s t f fl d hmem
    obtain ⟨h1, h2, h3, h4, h5⟩ := hcalls s t f fl d hmem
    refine ⟨h1, h2, h3, ?_, by rw [h5]; decide⟩
    rw [h4]
    cases recursive <;> decide

end MountArguments

/-- C9 on concrete runs: the mount of an `xfs` image in scenario A passes
`nouuid`, the mount of an `ext4` image passes the empty string. -/
theorem mount_syscall_arguments_witness :
    (uintptr 0 : Int) = 0 ∧
    (mount scenarioA.os "/dev/sda" "/tmp/hyper/c1/root" "xfs" 0 start).2.log.getLast?
      = some (Call.mount "/dev/sda" "/tmp/hyper/c1/root" "xfs" 0 "nouuid") ∧
    (mount scenarioA.os "/dev/sda" "/tmp/hyper/c1/root" "ext4" 0 start).2.log.getLast?
      = some (Call.mount "/dev/sda" "/tmp/hyper/c1/root" "ext4" 0 "") :=
  ⟨(mount_syscall_arguments scenarioA.os "/dev/sda" "/tmp/hyper/c1/root" "xfs" 0 start).2.1
      (by decide) (by decide), by decide, by decide⟩

/-! ## The matching rule of the hotplug wait (C6) -/

/-- The function `containsChars` decides whether `sub` is a contiguous part of `s`. -/
theorem containsChars_iff (s sub : List Char) :
    strings.containsChars s sub = true ↔ sub <:+: s := by
  induction s with
  | nil => simp [strings.containsChars, List.infix_nil]
  | cons c cs ih =>
    simp only [strings.containsChars, Bool.or_eq_true, ih, List.infix_cons_iff,
      List.isPrefixOf_iff_prefix]

/-- The base name of a non-empty path is a contiguous part of the path. -/
theorem baseChars_infix (path : List Char) (h : path ≠ []) :
    filepath.baseChars path <:+: path := by
  unfold filepath.baseChars
  rw [if_neg h]
  have hstrip : (path.reverse.dropWhile (fun c => decide (c = filepath.Separator))).reverse
      <+: path := by
    have := List.dropWhile_suffix (l := path.reverse) (fun c => decide (c = filepath.Separator))
    rw [← List.reverse_prefix] at this
    simpa using this
  have hlast : ∀ l : List Char, filepath.lastElement l <:+ l := by
    intro l
    unfold filepath.lastElement
    have := List.takeWhile_prefix (l := l.reverse) (fun c => decide (c ≠ filepath.Separator))
    rw [← List.reverse_suffix] at this
    simpa using this
  simp only []
  split
  · rename_i hempty
    by_cases hmem : filepath.Separator ∈ path
    · obtain ⟨a, b, hab⟩ := List.append_of_mem hmem
      exact ⟨a, b, by simp [hab]⟩
    · exfalso
      have hdrop : path.reverse.dropWhile (fun c => decide (c = filepath.Separator))
          = path.reverse := by
        cases hrev : path.reverse with
        | nil => rfl
        | cons x xs =>
          have hx : x ∈ path := by
            have : x ∈ path.reverse := by rw [hrev]; exact List.mem_cons_self x xs
            simpa using this
          have hne : x ≠ filepath.Separator := fun hxe => hmem (hxe ▸ hx)
          simp [List.dropWhile, hne]
      rw [hdrop, List.reverse_reverse] at hempty
      unfold filepath.lastElement at hempty
      have htake : path.reverse.takeWhile (fun c => decide (c ≠ filepath.Separator))
          = path.reverse := by
        rw [List.takeWhile_eq_self_iff]
        intro x hx
        have hx2 : x ∈ path := by simpa using hx
        have hne : x ≠ filepath.Separator := fun hxe => hmem (hxe ▸ hx2)
        simpa using hne
      rw [htake, List.reverse_reverse] at hempty
      exact h hempty
  · exact ((hlast _).isInfix).trans hstrip.isInfix

/-- C6: for every target name and every device event, other than the add event
with an empty device path for the target `.` (udev delivers no event with an
empty device path, and no caller waits for `.`): in SCSI mode the event ends
the wait exactly when its action is `add` and its device path contains the
target name; in named mode exactly when its action is `add` and the base name
of its device path is the target name. The loop reads the events that do not
match, one after the other, and stops at the first that matches. In named
mode with target `vda` the add event of `/devices/vda/block/vdb` does not
match. -/
theorem eventMatches_rule (deviceName : String) (d : Event)
    (h : d.Devpath ≠ "" ∨ deviceName ≠ ".") :
    (eventMatches deviceName true d = true ↔
      d.Action = "add" ∧ strings.Contains d.Devpath deviceName = true) ∧
    (eventMatches deviceName false d = true ↔
      d.Action = "add" ∧ filepath.Base d.Devpath = deviceName) ∧
    (∀ isSCSI ch,
      (listenLoop deviceName isSCSI ch).1 =
        ch.takeWhile (fun e => !eventMatches deviceName isSCSI e) ++
          (ch.dropWhile (fun e => !eventMatches deviceName isSCSI e)).take 1 ∧
      (listenLoop deviceName isSCSI ch).2 = ch.any (eventMatches deviceName isSCSI)) ∧
    eventMatches "vda" false ⟨"add", "/devices/vda/block/vdb", "/sys/devices/vda/block/vdb"⟩
      = false := by
  have hscsi : eventMatches deviceName true d = true ↔
      d.Action = "add" ∧
        (strings.Contains d.Devpath deviceName = true ∨ filepath.Base d.Devpath = deviceName) := by
    unfold eventMatches
    by_cases ha : d.Action = "add" <;> by_cases hc : strings.Contains d.Devpath deviceName = true
      <;> by_cases hb : filepath.Base d.Devpath = deviceName <;> simp [ha, hc, hb]
  have hbase : filepath.Base d.Devpath = deviceName →
      strings.Contains d.Devpath deviceName = true := by
    intro hb
    by_cases hne : d.Devpath = ""
    · exfalso
      rcases h with h | h
      · exact h hne
      · apply h
        rw [← hb, hne]
        decide
    · unfold strings.Contains
      rw [containsChars_iff]
      have hdata : d.Devpath.data ≠ [] := by
        intro h0
        apply hne
        cases hd : d.Devpath with
        | mk l => rw [hd] at h0; simp only at h0; rw [h0]
      have := baseChars_infix d.Devpath.data hdata
      rw [← hb]
      exact this
  refine ⟨?_, ?_, ?_, by decide⟩
  · rw [hscsi]
    constructor
    · rintro ⟨ha, hc | hb⟩
      · exact ⟨ha, hc⟩
      · exact ⟨ha, hbase hb⟩
    · rintro ⟨ha, hc⟩
      exact ⟨ha, Or.inl hc⟩
  · unfold eventMatches
    by_cases ha : d.Action = "add" <;> by_cases hb : filepath.Base d.Devpath = deviceName
      <;> simp [ha, hb]
  · intro isSCSI ch
    induction ch with
    | nil => simp [listenLoop]
    | cons e es ih =>
      by_cases hm : eventMatches deviceName isSCSI e = true
      · simp [listenLoop, hm, List.takeWhile, List.dropWhile]
      · simp only [Bool.not_eq_true] at hm
        simp [listenLoop, hm, List.takeWhile, List.dropWhile, ih.1, ih.2]

/-- C6 at scenario A: in SCSI mode with target `0:2:0/block` the add event of
the disk at that address ends the wait, and the change event of another
device is read before it. -/
theorem eventMatches_rule_witness :
    eventMatches "0:2:0/block" true
      ⟨"add", "/devices/pci0000:00/0000:00:02.0/virtio0/host0/target0:0:2/0:0:2:0/block/sda",
        "/sys/devices/pci0000:00/0000:00:02.0/virtio0/host0/target0:0:2/0:0:2:0/block/sda"⟩
      = true ∧
    listenLoop "0:2:0/block" true scenarioA.events = (scenarioA.events, true) :=
  ⟨((eventMatches_rule "0:2:0/block"
    ⟨"add", "/devices/pci0000:00/0000:00:02.0/virtio0/host0/target0:0:2/0:0:2:0/block/sda",
      "/sys/devices/pci0000:00/0000:00:02.0/virtio0/host0/target0:0:2/0:0:2:0/block/sda"⟩
    (Or.inl (by decide))).1).2 ⟨by decide, by decide⟩, by decide⟩

/-! ## The strategy of `mountContainerRootFs` (C3) -/

section Strategy

variable {σ : Type} (os : OS σ)

/-- The run of `mountContainerRootFs` with a file system type and a SCSI
address, when every step succeeds. -/
theorem mountContainerRootFs_scsi (cfg : Config)
    (containerID image rootFs fsType scsiAddr : String) (w w1 w2 w3 w4 w5 w6 : World σ)
    (n : String) (hfs : fsType ≠ "") (haddr : scsiAddr ≠ "")
    (hdir : doMkdirAll os (containerRoot cfg containerID) 0o755 w = (none, w1))
    (hscan : scanSCSIBus os w1 = (none, w2))
    (hwait : waitForBlockDevice os ("0:" ++ scsiAddr ++ "/block") true w2 = (none, w3))
    (hfind : findSCSIDisk os scsiAddr w3 = (Outcome.returned (n, none), w4))
    (hmount : mount os (filepath.Join [devPath, n]) (containerRoot cfg containerID) fsType 0 w4
      = (none, w5))
    (hbind : bindMount os (innerRoot cfg containerID rootFs) (innerRoot cfg containerID rootFs)
      true w5 = (none, w6)) :
    mountContainerRootFs os cfg containerID image rootFs fsType scsiAddr w
      = (Outcome.returned (innerRoot cfg containerID rootFs, none), w6) ∧
    ∃ calls dev root, w6.log = w.log ++ calls ∧
      (os.evalSymlinks (filepath.Join [devPath, n]) w4.st).1 = Except.ok dev ∧
      (os.evalSymlinks (innerRoot cfg containerID rootFs) w5.st).1 = Except.ok root ∧
      calls.filter Call.isMount =
        [Call.mount dev (containerRoot cfg containerID) fsType 0
            (if fsType = "xfs" then "nouuid" else ""),
          Call.mount root (innerRoot cfg containerID rootFs) "bind" 0x5000 ""] := by
  constructor
  · unfold innerRoot containerRoot at *
    unfold mountContainerRootFs
    simp only [hdir, hscan, hwait, hfind, hmount, hbind, hfs, haddr, ne_eq, not_false_eq_true,
      if_true]
  · have l1 : w1.log = w.log ++ [Call.mkdirAll (containerRoot cfg containerID) 0o755] := by
      have := congrArg (fun r => r.2.log) hdir
      simpa [doMkdirAll] using this.symm
    obtain ⟨c2, l2, k2⟩ := scanSCSIBus_log os w1
    rw [hscan] at l2
    obtain ⟨c3, l3, k3⟩ := waitForBlockDevice_log os ("0:" ++ scsiAddr ++ "/block") true w2
    rw [hwait] at l3
    obtain ⟨c4, l4, k4⟩ := findSCSIDisk_log os scsiAddr w3
    rw [hfind] at l4
    obtain ⟨dev, c5, e5, l5, k5⟩ := mount_ok_log os _ _ _ _ _ _ hmount
    obtain ⟨root, c6, e6, l6, k6⟩ := bindMount_ok_log os _ _ _ _ _ hbind
    simp only [] at l2 l3 l4
    refine ⟨[Call.mkdirAll (containerRoot cfg containerID) 0o755] ++ c2 ++ c3 ++ c4 ++ c5 ++
      [Call.mount dev (containerRoot cfg containerID) fsType (uintptr 0)
        (if fsType = "xfs" then "nouuid" else "")] ++ c6 ++
      [Call.mount root (innerRoot cfg containerID rootFs) "bind" 0x5000 ""], dev, root, ?_, e5, e6,
      ?_⟩
    · rw [l6, l5, l4, l3, l2, l1]
      simp
    · have f2 := filter_isMount_nil c2 k2
      have f3 := filter_isMount_nil c3 (fun c hc => (k3 c hc).1)
      have f4 := filter_isMount_nil c4 (fun c hc => by
        rcases k4 c hc with rfl | rfl <;> rfl)
      have f5 := filter_isMount_nil c5 (fun c hc => (isSetup_kinds c (k5 c hc)).1)
      have f6 := filter_isMount_nil c6 (fun c hc => (isSetup_kinds c (k6 c hc)).1)
      simp only [List.filter_append, f2, f3, f4, f5, f6]
      simp [List.filter, Call.isMount, uintptr]

/-- The run of `mountContainerRootFs` with a file system type and no SCSI
address, when every step succeeds. -/
theorem mountContainerRootFs_named (cfg : Config)
    (containerID image rootFs fsType scsiAddr : String) (w w1 w2 w3 w4 : World σ)
    (hfs : fsType ≠ "") (haddr : scsiAddr = "")
    (hdir : doMkdirAll os (containerRoot cfg containerID) 0o755 w = (none, w1))
    (hwait : waitForBlockDevice os image false w1 = (none, w2))
    (hmount : mount os (filepath.Join [devPath, image]) (containerRoot cfg containerID) fsType 0 w2
      = (none, w3))
    (hbind : bindMount os (innerRoot cfg containerID rootFs) (innerRoot cfg containerID rootFs)
      true w3 = (none, w4)) :
    mountContainerRootFs os cfg containerID image rootFs fsType scsiAddr w
      = (Outcome.returned (innerRoot cfg containerID rootFs, none), w4) ∧
    ∃ calls dev root, w4.log = w.log ++ calls ∧
      (os.evalSymlinks (filepath.Join [devPath, image]) w2.st).1 = Except.ok dev ∧
      (os.evalSymlinks (innerRoot cfg containerID rootFs) w3.st).1 = Except.ok root ∧
      calls.filter Call.isMount =
        [Call.mount dev (containerRoot cfg containerID) fsType 0
            (if fsType = "xfs" then "nouuid" else ""),
          Call.mount root (innerRoot cfg containerID rootFs) "bind" 0x5000 ""] ∧
      ∀ c ∈ calls, c.isScan = false := by
  constructor
  · unfold innerRoot containerRoot at *
    unfold mountContainerRootFs
    simp only [hdir, hwait, hmount, hbind, hfs, haddr, ne_eq, not_false_eq_true,
      if_true, not_true_eq_false, if_false]
  · have l1 : w1.log = w.log ++ [Call.mkdirAll (containerRoot cfg containerID) 0o755] := by
      have := congrArg (fun r => r.2.log) hdir
      simpa [doMkdirAll] using this.symm
    obtain ⟨c3, l3, k3⟩ := waitForBlockDevice_log os image false w1
    rw [hwait] at l3
    obtain ⟨dev, c5, e5, l5, k5⟩ := mount_ok_log os _ _ _ _ _ _ hmount
    obtain ⟨root, c6, e6, l6, k6⟩ := bindMount_ok_log os _ _ _ _ _ hbind
    simp only [] at l3
    refine ⟨[Call.mkdirAll (containerRoot cfg containerID) 0o755] ++ c3 ++ c5 ++
      [Call.mount dev (containerRoot cfg containerID) fsType (uintptr 0)
        (if fsType = "xfs" then "nouuid" else "")] ++ c6 ++
      [Call.mount root (innerRoot cfg containerID rootFs) "bind" 0x5000 ""], dev, root, ?_, e5, e6,
      ?_, ?_⟩
    · rw [l6, l5, l3, l1]
      simp
    · have f3 := filter_isMount_nil c3 (fun c hc => (k3 c hc).1)
      have f5 := filter_isMount_nil c5 (fun c hc => (isSetup_kinds c (k5 c hc)).1)
      have f6 := filter_isMount_nil c6 (fun c hc => (isSetup_kinds c (k6 c hc)).1)
      simp only [List.filter_append, f3, f5, f6]
      simp [List.filter, Call.isMount, uintptr]
    · intro c hc
      simp only [List.mem_append, List.mem_singleton] at hc
      rcases hc with ((((rfl | hc) | hc) | rfl) | hc) | rfl
      · rfl
      · exact (k3 c hc).2
      · exact (isSetup_kinds c (k5 c hc)).2.1
      · rfl
      · exact (isSetup_kinds c (k6 c hc)).2.1
      · rfl

/-- The run of `mountContainerRootFs` without a file system type, when every
step succeeds. -/
theorem mountContainerRootFs_shared (cfg : Config)
    (containerID image rootFs fsType scsiAddr : String) (w w1 w2 w3 : World σ)
    (hfs : fsType = "")
    (hdir : doMkdirAll os (containerRoot cfg containerID) 0o755 w = (none, w1))
    (hshare : bindMount os (filepath.Join [cfg.mountShareDirDest, image])
      (containerRoot cfg containerID) false w1 = (none, w2))
    (hbind : bindMount os (innerRoot cfg containerID rootFs) (innerRoot cfg containerID rootFs)
      true w2 = (none, w3)) :
    mountContainerRootFs os cfg containerID image rootFs fsType scsiAddr w
      = (Outcome.returned (innerRoot cfg containerID rootFs, none), w3) ∧
    ∃ calls img root, w3.log = w.log ++ calls ∧
      (os.evalSymlinks (filepath.Join [cfg.mountShareDirDest, image]) w1.st).1 = Except.ok img ∧
      (os.evalSymlinks (innerRoot cfg containerID rootFs) w2.st).1 = Except.ok root ∧
      calls.filter Call.isMount =
        [Call.mount img (containerRoot cfg containerID) "bind" 0x1000 "",
          Call.mount root (innerRoot cfg containerID rootFs) "bind" 0x5000 ""] ∧
      ∀ c ∈ calls, c.isScan = false ∧ c.isUdev = false := by
  constructor
  · unfold innerRoot containerRoot at *
    unfold mountContainerRootFs
    simp only [hdir, hshare, hbind, hfs, ne_eq, not_true_eq_false, if_false]
  · have l1 : w1.log = w.log ++ [Call.mkdirAll (containerRoot cfg containerID) 0o755] := by
      have := congrArg (fun r => r.2.log) hdir
      simpa [doMkdirAll] using this.symm
    obtain ⟨img, c5, e5, l5, k5⟩ := bindMount_ok_log os _ _ _ _ _ hshare
    obtain ⟨root, c6, e6, l6, k6⟩ := bindMount_ok_log os _ _ _ _ _ hbind
    refine ⟨[Call.mkdirAll (containerRoot cfg containerID) 0o755] ++ c5 ++
      [Call.mount img (containerRoot cfg containerID) "bind" 0x1000 ""] ++ c6 ++
      [Call.mount root (innerRoot cfg containerID rootFs) "bind" 0x5000 ""], img, root, ?_, e5, e6,
      ?_, ?_⟩
    · rw [l6, l5, l1]
      simp
    · have f5 := filter_isMount_nil c5 (fun c hc => (isSetup_kinds c (k5 c hc)).1)
      have f6 := filter_isMount_nil c6 (fun c hc => (isSetup_kinds c (k6 c hc)).1)
      simp only [List.filter_append, f5, f6]
      simp [List.filter, Call.isMount]
    · intro c hc
      simp only [List.mem_append, List.mem_singleton] at hc
      rcases hc with (((rfl | hc) | rfl) | hc) | rfl
      · exact ⟨rfl, rfl⟩
      · exact (isSetup_kinds c (k5 c hc)).2
      · exact ⟨rfl, rfl⟩
      · exact (isSetup_kinds c (k6 c hc)).2
      · exact ⟨rfl, rfl⟩

/-- C3: after the destination `<containerMountDest>/<containerID>/root` is
created, `mountContainerRootFs` picks its strategy from `fsType` and
`scsiAddr`, and when every step succeeds it returns the inner root path.
(1) Both non-empty: the run is the rescan of the SCSI bus, the wait in SCSI
mode for `"0:" ++ scsiAddr ++ "/block"`, `findSCSIDisk scsiAddr` giving a name
`n`, the mount of `/dev/n` at the destination with `fsType` and flags 0, and
the recursive bind mount of the inner root onto itself. (2) `fsType` non-empty
and `scsiAddr` empty: the wait in named mode for `image`, the mount of
`/dev/<image>` with `fsType` and flags 0, the recursive bind mount; no call of
a rescan is made. (3) `fsType` empty: the bind mount of
`<mountShareDirDest>/<image>` at the destination with `MS_BIND` alone, the
recursive bind mount; no call of a rescan or of the udev monitor is made. In
each case the mount system calls of the run are exactly these two. -/
theorem mountContainerRootFs_strategy (cfg : Config)
    (containerID image rootFs fsType scsiAddr : String) (w w1 : World σ)
    (hdir : doMkdirAll os (containerRoot cfg containerID) 0o755 w = (none, w1)) :
    (fsType ≠ "" → scsiAddr ≠ "" → ∀ (w2 w3 w4 w5 w6 : World σ) (n : String),
      scanSCSIBus os w1 = (none, w2) →
      waitForBlockDevice os ("0:" ++ scsiAddr ++ "/block") true w2 = (none, w3) →
      findSCSIDisk os scsiAddr w3 = (Outcome.returned (n, none), w4) →
      mount os (filepath.Join [devPath, n]) (containerRoot cfg containerID) fsType 0 w4
        = (none, w5) →
      bindMount os (innerRoot cfg containerID rootFs) (innerRoot cfg containerID rootFs) true w5
        = (none, w6) →
      mountContainerRootFs os cfg containerID image rootFs fsType scsiAddr w
        = (Outcome.returned (innerRoot cfg containerID rootFs, none), w6) ∧
      ∃ calls dev root, w6.log = w.log ++ calls ∧
        (os.evalSymlinks (filepath.Join [devPath, n]) w4.st).1 = Except.ok dev ∧
        (os.evalSymlinks (innerRoot cfg containerID rootFs) w5.st).1 = Except.ok root ∧
        calls.filter Call.isMount =
          [Call.mount dev (containerRoot cfg containerID) fsType 0
              (if fsType = "xfs" then "nouuid" else ""),
            Call.mount root (innerRoot cfg containerID rootFs) "bind" 0x5000 ""]) ∧
    (fsType ≠ "" → scsiAddr = "" → ∀ (w2 w3 w4 : World σ),
      waitForBlockDevice os image false w1 = (none, w2) →
      mount os (filepath.Join [devPath, image]) (containerRoot cfg containerID) fsType 0 w2
        = (none, w3) →
      bindMount os (innerRoot cfg containerID rootFs) (innerRoot cfg containerID rootFs) true w3
        = (none, w4) →
      mountContainerRootFs os cfg containerID image rootFs fsType scsiAddr w
        = (Outcome.returned (innerRoot cfg containerID rootFs, none), w4) ∧
      ∃ calls dev root, w4.log = w.log ++ calls ∧
        (os.evalSymlinks (filepath.Join [devPath, image]) w2.st).1 = Except.ok dev ∧
        (os.evalSymlinks (innerRoot cfg containerID rootFs) w3.st).1 = Except.ok root ∧
        calls.filter Call.isMount =
          [Call.mount dev (containerRoot cfg containerID) fsType 0
              (if fsType = "xfs" then "nouuid" else ""),
            Call.mount root (innerRoot cfg containerID rootFs) "bind" 0x5000 ""] ∧
        ∀ c ∈ calls, c.isScan = false) ∧
    (fsType = "" → ∀ (w2 w3 : World σ),
      bindMount os (filepath.Join [cfg.mountShareDirDest, image])
        (containerRoot cfg containerID) false w1 = (none, w2) →
      bindMount os (innerRoot cfg containerID rootFs) (innerRoot cfg containerID rootFs) true w2
        = (none, w3) →
      mountContainerRootFs os cfg containerID image rootFs fsType scsiAddr w
        = (Outcome.returned (innerRoot cfg containerID rootFs, none), w3) ∧
      ∃ calls img root, w3.log = w.log ++ calls ∧
        (os.evalSymlinks (filepath.Join [cfg.mountShareDirDest, image]) w1.st).1
          = Except.ok img ∧
        (os.evalSymlinks (innerRoot cfg containerID rootFs) w2.st).1 = Except.ok root ∧
        calls.filter Call.isMount =
          [Call.mount img (containerRoot cfg containerID) "bind" 0x1000 "",
            Call.mount root (innerRoot cfg containerID rootFs) "bind" 0x5000 ""] ∧
        ∀ c ∈ calls, c.isScan = false ∧ c.isUdev = false) := by
  refine ⟨?_, ?_, ?_⟩
  · intro hfs haddr w2 w3 w4 w5 w6 n hscan hwait hfind hmount hbind
    exact mountContainerRootFs_scsi os cfg containerID image rootFs fsType scsiAddr
      w w1 w2 w3 w4 w5 w6 n hfs haddr hdir hscan hwait hfind hmount hbind
  · intro hfs haddr w2 w3 w4 hwait hmount hbind
    exact mountContainerRootFs_named os cfg containerID image rootFs fsType scsiAddr
      w w1 w2 w3 w4 hfs haddr hdir hwait hmount hbind
  · intro hfs w2 w3 hshare hbind
    exact mountContainerRootFs_shared os cfg containerID image rootFs fsType scsiAddr
      w w1 w2 w3 hfs hdir hshare hbind

end Strategy

/-- C3 on scenario A of the specification: container `c1`, root `rootfs`, type
`ext4`, address `2:0`, disk `sda`. The wait is left by the add event of the
disk, `/dev/sda` is mounted at `/tmp/hyper/c1/root`, and the inner root is
returned. -/
theorem mountContainerRootFs_strategy_witness :
    mountContainerRootFs scenarioA.os testConfig "c1" "" "rootfs" "ext4" "2:0" start
      = (Outcome.returned ("/tmp/hyper/c1/root/rootfs", none), afterBind scenarioA) ∧
    (afterBind scenarioA).log.filter Call.isMount =
      [Call.mount "/dev/sda" "/tmp/hyper/c1/root" "ext4" 0 "",
        Call.mount "/tmp/hyper/c1/root/rootfs" "/tmp/hyper/c1/root/rootfs" "bind" 0x5000 ""] :=
  ⟨((mountContainerRootFs_strategy scenarioA.os testConfig "c1" "" "rootfs" "ext4" "2:0"
      start (afterMkdir scenarioA) (by decide)).1 (by decide) (by decide)
      (afterScan scenarioA) (afterWait scenarioA) (afterFind scenarioA) (afterMount scenarioA)
      (afterBind scenarioA) "sda"
      (by decide) (by decide) (by decide) (by decide) (by decide)).1,
    by decide⟩

/-! ## Failure of the disk resolution (C1, C2) -/

section ResolutionFailure

variable {σ : Type} (os : OS σ)

/-- C1 as the code has it: when the rescan and the wait succeed and
`findSCSIDisk` fails, `mountContainerRootFs` returns the empty path and makes
no mount; it runs `ls -la /sys/class/scsi_disk/` and, when that succeeds,
`lsblk`. When `ls` fails, its error is returned and `lsblk` is not run; when
`ls` succeeds and `lsblk` fails, the error of `lsblk` is returned. -/
theorem mountContainerRootFs_resolution_failure (cfg : Config)
    (containerID image rootFs fsType scsiAddr : String) (w w1 w2 w3 w4 : World σ)
    (name : String) (e : Error) (hfs : fsType ≠ "") (haddr : scsiAddr ≠ "")
    (hdir : doMkdirAll os (containerRoot cfg containerID) 0o755 w = (none, w1))
    (hscan : scanSCSIBus os w1 = (none, w2))
    (hwait : waitForBlockDevice os ("0:" ++ scsiAddr ++ "/block") true w2 = (none, w3))
    (hfind : findSCSIDisk os scsiAddr w3 = (Outcome.returned (name, some e), w4)) :
    (∃ err, (mountContainerRootFs os cfg containerID image rootFs fsType scsiAddr w).1
      = Outcome.returned ("", err)) ∧
    (∃ calls, (mountContainerRootFs os cfg containerID image rootFs fsType scsiAddr w).2.log
        = w4.log ++ calls ∧
      (calls = [Call.exec "ls" ["-la", "/sys/class/scsi_disk/"]] ∨
        calls = [Call.exec "ls" ["-la", "/sys/class/scsi_disk/"], Call.exec "lsblk" []])) ∧
    (∃ calls, (mountContainerRootFs os cfg containerID image rootFs fsType scsiAddr w).2.log
        = w.log ++ calls ∧ ∀ c ∈ calls, c.isMount = false) ∧
    (∀ out e1, (os.combinedOutput "ls" ["-la", "/sys/class/scsi_disk/"] w4.st).1
        = (out, some e1) →
      (mountContainerRootFs os cfg containerID image rootFs fsType scsiAddr w).1
        = Outcome.returned ("", some e1) ∧
      (mountContainerRootFs os cfg containerID image rootFs fsType scsiAddr w).2.log
        = w4.log ++ [Call.exec "ls" ["-la", "/sys/class/scsi_disk/"]]) ∧
    (∀ out out2 e2, (os.combinedOutput "ls" ["-la", "/sys/class/scsi_disk/"] w4.st).1
        = (out, none) →
      (os.combinedOutput "lsblk" []
        (os.combinedOutput "ls" ["-la", "/sys/class/scsi_disk/"] w4.st).2).1 = (out2, some e2) →
      (mountContainerRootFs os cfg containerID image rootFs fsType scsiAddr w).1
        = Outcome.returned ("", some e2)) := by
  have l1 : w1.log = w.log ++ [Call.mkdirAll (containerRoot cfg containerID) 0o755] := by
    have := congrArg (fun r => r.2.log) hdir
    simpa [doMkdirAll] using this.symm
  obtain ⟨c2, l2, k2⟩ := scanSCSIBus_log os w1
  rw [hscan] at l2
  obtain ⟨c3, l3, k3⟩ := waitForBlockDevice_log os ("0:" ++ scsiAddr ++ "/block") true w2
  rw [hwait] at l3
  obtain ⟨c4, l4, k4⟩ := findSCSIDisk_log os scsiAddr w3
  rw [hfind] at l4
  simp only [] at l2 l3 l4
  have hw4 : ∃ pre, w4.log = w.log ++ pre ∧ ∀ c ∈ pre, c.isMount = false := by
    refine ⟨[Call.mkdirAll (containerRoot cfg containerID) 0o755] ++ c2 ++ c3 ++ c4, ?_, ?_⟩
    · rw [l4, l3, l2, l1]
      simp
    · intro c hc
      simp only [List.mem_append, List.mem_singleton] at hc
      rcases hc with ((rfl | hc) | hc) | hc
      · rfl
      · exact k2 c hc
      · exact (k3 c hc).1
      · rcases k4 c hc with rfl | rfl <;> rfl
  obtain ⟨pre, hpre, kpre⟩ := hw4
  have hdiag : ∀ diag : List Call, (∀ c ∈ diag, c.isMount = false) →
      ∃ calls, w4.log ++ diag = w.log ++ calls ∧ ∀ c ∈ calls, c.isMount = false := by
    intro diag hd
    refine ⟨pre ++ diag, by rw [hpre]; simp, ?_⟩
    intro c hc
    rcases List.mem_append.mp hc with hc | hc
    · exact kpre c hc
    · exact hd c hc
  unfold containerRoot at hdir
  unfold mountContainerRootFs
  simp only [hdir, hscan, hwait, hfind, hfs, haddr, ne_eq, not_false_eq_true, if_true,
    doCombinedOutput]
  rcases hls : os.combinedOutput "ls" ["-la", "/sys/class/scsi_disk/"] w4.st
    with ⟨⟨out, _ | e1⟩, s5⟩
  · simp only []
    rcases hlsblk : os.combinedOutput "lsblk" [] s5 with ⟨⟨out2, _ | e2⟩, s6⟩
    · refine ⟨⟨none, by simp⟩, ⟨_, by simp, Or.inr rfl⟩, ?_, by simp, by simp⟩
      have := hdiag [Call.exec "ls" ["-la", "/sys/class/scsi_disk/"], Call.exec "lsblk" []]
        (by simp [Call.isMount])
      simpa using this
    · refine ⟨⟨some e2, by simp⟩, ⟨_, by simp, Or.inr rfl⟩, ?_, by simp, by simp⟩
      have := hdiag [Call.exec "ls" ["-la", "/sys/class/scsi_disk/"], Call.exec "lsblk" []]
        (by simp [Call.isMount])
      simpa using this
  · refine ⟨⟨some e1, by simp⟩, ⟨_, by simp, Or.inl rfl⟩, ?_, by simp, by simp⟩
    have := hdiag [Call.exec "ls" ["-la", "/sys/class/scsi_disk/"]] (by simp [Call.isMount])
    simpa using this

/-- A result without error of `mountContainerRootFs` is either the inner root,
returned right after the recursive bind mount of the inner root onto itself,
or the empty path, returned right after the command `lsblk` in the branch
taken when `findSCSIDisk` fails. -/
theorem mountContainerRootFs_nil_result (cfg : Config)
    (containerID image rootFs fsType scsiAddr : String) (w w2 : World σ) (path : String)
    (h : mountContainerRootFs os cfg containerID image rootFs fsType scsiAddr w
      = (Outcome.returned (path, none), w2)) :
    (path = innerRoot cfg containerID rootFs ∧
      ∃ root, w2.log.getLast? =
        some (Call.mount root (innerRoot cfg containerID rootFs) "bind" 0x5000 "")) ∨
    (path = "" ∧ fsType ≠ "" ∧ scsiAddr ≠ "" ∧
      w2.log.getLast? = some (Call.exec "lsblk" [])) := by
  have tail : ∀ w5 : World σ,
      (match bindMount os (innerRoot cfg containerID rootFs) (innerRoot cfg containerID rootFs)
          true w5 with
        | (some err, w6) => (Outcome.returned ("", some err), w6)
        | (none, w6) => (Outcome.returned (innerRoot cfg containerID rootFs, none), w6))
        = (Outcome.returned (path, none), w2) →
      path = innerRoot cfg containerID rootFs ∧
      ∃ root, w2.log.getLast? =
        some (Call.mount root (innerRoot cfg containerID rootFs) "bind" 0x5000 "") := by
    intro w5 ht
    rcases hb : bindMount os (innerRoot cfg containerID rootFs)
      (innerRoot cfg containerID rootFs) true w5 with ⟨_ | e, w6⟩
    · rw [hb] at ht
      simp only [Prod.mk.injEq, Outcome.returned.injEq, and_true] at ht
      obtain ⟨hp, hw⟩ := ht
      subst hw
      obtain ⟨root, calls, _, hlog, _⟩ := bindMount_ok_log os _ _ _ _ _ hb
      exact ⟨hp.symm, root, by rw [hlog]; simp⟩
    · rw [hb] at ht
      simp at ht
  unfold mountContainerRootFs at h
  simp only [] at h
  rcases h1 : doMkdirAll os (filepath.Join [cfg.containerMountDest, containerID, "root"]) 0o755 w
    with ⟨_ | e, w1⟩
  · simp only [h1] at h
    by_cases hfs : fsType ≠ ""
    · rw [if_pos hfs] at h
      by_cases haddr : scsiAddr ≠ ""
      · rw [if_pos haddr] at h
        rcases h2 : scanSCSIBus os w1 with ⟨_ | e, w2⟩
        · simp only [h2] at h
          rcases h3 : waitForBlockDevice os ("0:" ++ scsiAddr ++ "/block") true w2
            with ⟨_ | e, w3⟩
          · simp only [h3] at h
            rcases h4 : findSCSIDisk os scsiAddr w3 with ⟨⟨n, _ | e⟩ | m, w4⟩
            · simp only [h4] at h
              rcases h5 : mount os (filepath.Join [devPath, n])
                (filepath.Join [cfg.containerMountDest, containerID, "root"]) fsType 0 w4
                with ⟨_ | e, w5⟩
              · simp only [h5] at h
                exact Or.inl (tail w5 h)
              · simp [h5] at h
            · simp only [h4, doCombinedOutput] at h
              rcases h5 : os.combinedOutput "ls" ["-la", "/sys/class/scsi_disk/"] w4.st
                with ⟨⟨out, _ | e1⟩, s5⟩
              · simp only [h5] at h
                rcases h6 : os.combinedOutput "lsblk" [] s5 with ⟨⟨out2, _ | e2⟩, s6⟩
                · simp only [h6, ne_eq, not_true_eq_false, if_false, Prod.mk.injEq,
                    Outcome.returned.injEq, and_true] at h
                  right
                  refine ⟨h.1.symm, hfs, haddr, ?_⟩
                  rw [← h.2]
                  simp
                · simp [h6] at h
              · simp [h5] at h
            · simp [h4] at h
          · simp [h3] at h
        · simp [h2] at h
      · rw [if_neg haddr] at h
        rcases h3 : waitForBlockDevice os image false w1 with ⟨_ | e, w3⟩
        · simp only [h3] at h
          rcases h5 : mount os (filepath.Join [devPath, image])
            (filepath.Join [cfg.containerMountDest, containerID, "root"]) fsType 0 w3
            with ⟨_ | e, w5⟩
          · simp only [h5] at h
            exact Or.inl (tail w5 h)
          · simp [h5] at h
        · simp [h3] at h
    · rw [if_neg hfs] at h
      rcases h5 : bindMount os (filepath.Join [cfg.mountShareDirDest, image])
        (filepath.Join [cfg.containerMountDest, containerID, "root"]) false w1 with ⟨_ | e, w5⟩
      · simp only [h5] at h
        exact Or.inl (tail w5 h)
      · simp [h5] at h
  · simp [h1] at h

end ResolutionFailure

/-- C1 on a concrete run: no disk is bound to address `2:0` and `ls` fails;
the error of `ls` is returned. -/
theorem mountContainerRootFs_resolution_failure_witness :
    (mountContainerRootFs scenarioLsFails.os testConfig "c1" "" "rootfs" "ext4" "2:0" start).1
      = Outcome.returned ("", some (Error.exec 2)) :=
  ((mountContainerRootFs_resolution_failure scenarioLsFails.os testConfig "c1" "" "rootfs"
      "ext4" "2:0" start (afterMkdir scenarioLsFails) (afterScan scenarioLsFails)
      (afterWait scenarioLsFails) (afterFind scenarioLsFails) "" (Error.errno ENOENT)
      (by decide) (by decide) (by decide) (by decide) (by decide) (by decide)).2.2.2.1
    "ls: cannot access /sys/class/scsi_disk/\n" (Error.exec 2) (by decide)).1

/-- C1 fails as stated: with no disk bound to address `2:0` the rescan and the
wait succeed and `findSCSIDisk` fails with `ENOENT`; the command `ls` fails,
and `mountContainerRootFs` returns the error of `ls`, not `ENOENT`. -/
theorem mountContainerRootFs_diagnostic_error_counterexample :
    scanSCSIBus scenarioLsFails.os (afterMkdir scenarioLsFails)
      = (none, afterScan scenarioLsFails) ∧
    waitForBlockDevice scenarioLsFails.os "0:2:0/block" true (afterScan scenarioLsFails)
      = (none, afterWait scenarioLsFails) ∧
    findSCSIDisk scenarioLsFails.os "2:0" (afterWait scenarioLsFails)
      = (Outcome.returned ("", some (Error.errno ENOENT)), afterFind scenarioLsFails) ∧
    (mountContainerRootFs scenarioLsFails.os testConfig "c1" "" "rootfs" "ext4" "2:0" start).1
      = Outcome.returned ("", some (Error.exec 2)) ∧
    ∀ path, (mountContainerRootFs scenarioLsFails.os testConfig "c1" "" "rootfs" "ext4" "2:0"
      start).1 ≠ Outcome.returned (path, some (Error.errno ENOENT)) := by
  refine ⟨by decide, by decide, by decide, by decide, ?_⟩
  intro path h
  have h2 : (mountContainerRootFs scenarioLsFails.os testConfig "c1" "" "rootfs" "ext4" "2:0"
      start).1 = Outcome.returned ("", some (Error.exec 2)) := by decide
  rw [h2] at h
  injection h with h3
  injection h3 with _ h4
  injection h4 with h5
  exact Error.noConfusion h5

/-- C2 fails on the code: with no disk bound to address `2:0` and both
diagnostic commands succeeding, `mountContainerRootFs` returns the empty path
and no error, although the inner root is `/tmp/hyper/c1/root/rootfs` and no
mount was made. The rescan and the wait succeeded and `findSCSIDisk` failed
with `ENOENT`; that error is lost. -/
theorem mountContainerRootFs_returns_nil_without_mount :
    findSCSIDisk scenarioNoDisk.os "2:0" (afterWait scenarioNoDisk)
      = (Outcome.returned ("", some (Error.errno ENOENT)), afterFind scenarioNoDisk) ∧
    (mountContainerRootFs scenarioNoDisk.os testConfig "c1" "" "rootfs" "ext4" "2:0" start).1
      = Outcome.returned ("", none) ∧
    innerRoot testConfig "c1" "rootfs" = "/tmp/hyper/c1/root/rootfs" ∧
    (mountContainerRootFs scenarioNoDisk.os testConfig "c1" "" "rootfs" "ext4" "2:0" start).2.log
      = [Call.mkdirAll "/tmp/hyper/c1/root" 0o755,
          Call.stat "/sys/class/scsi_host",
          Call.readDir "/sys/class/scsi_host",
          Call.writeFile "/sys/class/scsi_host/host0/scan" "0 0 0" 0o666,
          Call.stat "/sys/class/scsi_device/0:0:0:0",
          Call.udevFilter "block" "disk",
          Call.udevChan,
          Call.stat "/dev/0:2:0/block",
          Call.udevEvent ⟨"add",
            "/devices/pci0000:00/0000:00:02.0/virtio0/host0/target0:0:2/0:0:2:0/block/sda",
            "/sys/devices/pci0000:00/0000:00:02.0/virtio0/host0/target0:0:2/0:0:2:0/block/sda"⟩,
          Call.udevCancel,
          Call.stat "/sys/class/scsi_disk/0:0:2:0/device/block",
          Call.exec "ls" ["-la", "/sys/class/scsi_disk/"],
          Call.exec "lsblk" []] := by
  refine ⟨by decide, by decide, by decide, by decide⟩

/-! ## The mount primitive on a file system (C5, C8) -/

namespace SimFS

theorem extends_refl (n : List (String × Bool)) : Extends n n := fun _ _ h => h

theorem extends_trans {n n2 n3 : List (String × Bool)} (h1 : Extends n n2) (h2 : Extends n2 n3) :
    Extends n n3 := fun a v h => h2 a v (h1 a v h)

theorem find_append (a : String) (n : List (String × Bool)) (p : String) (k : Bool) :
    find a (n ++ [(p, k)]) =
      match find a n with
      | some v => some v
      | none => if p = a then some k else none := by
  induction n with
  | nil => simp [find]
  | cons x xs ih =>
    rcases x with ⟨q, v⟩
    by_cases hq : q = a
    · simp [find, hq]
    · simp [find, hq, ih]

theorem extends_append (n : List (String × Bool)) (p : String) (k : Bool) :
    Extends n (n ++ [(p, k)]) := by
  intro a v h
  rw [find_append, h]

theorem find_append_new (n : List (String × Bool)) (p : String) (k : Bool)
    (h : find p n = none) : find p (n ++ [(p, k)]) = some k := by
  rw [find_append, h]
  simp

theorem kind_mono {fs fs2 : SimFS} (h : Extends fs.nodes fs2.nodes) (path : String) (v : Bool)
    (hk : fs.kind path = some v) : fs2.kind path = some v := by
  unfold kind at hk ⊢
  by_cases h0 : path = ""
  · simp [h0] at hk
  · rw [if_neg h0] at hk ⊢
    by_cases hr : abs path = "/"
    · rw [if_pos hr] at hk ⊢
      exact hk
    · rw [if_neg hr] at hk ⊢
      exact h _ _ hk

theorem makeDirs_extends (ps : List String) (n : List (String × Bool)) :
    Extends n (makeDirs ps n).2 := by
  induction ps generalizing n with
  | nil => exact extends_refl n
  | cons p ps ih =>
    unfold makeDirs
    rcases hf : find p n with _ | v
    · exact extends_trans (extends_append n p true) (ih _)
    · cases v
      · exact extends_refl n
      · exact ih n

/-- What `create` does when it succeeds. -/
theorem create_ok (fs fs2 : SimFS) (path : String) (isDir : Bool)
    (hnew : fs.kind path = none) (hne : path ≠ "")
    (h : create fs path isDir = (none, fs2)) :
    fs2.mounts = fs.mounts ∧ Extends fs.nodes fs2.nodes ∧ fs2.kind path = some isDir := by
  unfold create at h
  rcases hp : fs.kind (parent (abs path)) with _ | v
  · simp [hp] at h
  · cases v
    · simp [hp] at h
    · simp only [hp, Prod.mk.injEq, true_and] at h
      subst h
      refine ⟨rfl, extends_append _ _ _, ?_⟩
      unfold kind at hnew ⊢
      rw [if_neg hne] at hnew ⊢
      by_cases hr : abs path = "/"
      · simp [hr] at hnew
      · rw [if_neg hr] at hnew ⊢
        exact find_append_new _ _ _ hnew

/-- When `create` fails the file system is as before. -/
theorem create_err (fs fs2 : SimFS) (path : String) (isDir : Bool) (e : Error)
    (h : create fs path isDir = (some e, fs2)) : fs2 = fs := by
  unfold create at h
  rcases hp : fs.kind (parent (abs path)) with _ | v
  · simp only [hp, Prod.mk.injEq] at h
    exact h.2.symm
  · cases v
    · simp only [hp, Prod.mk.injEq] at h
      exact h.2.symm
    · simp [hp] at h

/-- The effect of `mkdirAll`: the mounts stay, no node is lost, and after a
success the path is a directory. -/
theorem mkdirAll_effect (path : String) (perm : Nat) (fs : SimFS) :
    (mkdirAll path perm fs).2.mounts = fs.mounts ∧
    Extends fs.nodes (mkdirAll path perm fs).2.nodes ∧
    ((mkdirAll path perm fs).1 = none → (mkdirAll path perm fs).2.kind path = some true) ∧
    (fs.kind path = some true → mkdirAll path perm fs = (none, fs)) := by
  unfold mkdirAll
  by_cases h0 : path = ""
  · simp [h0, extends_refl, kind]
  · rw [if_neg h0]
    rcases hk : fs.kind path with _ | v
    · simp only []
      have hext := makeDirs_extends (ancestors (abs path)) fs.nodes
      rcases hm : makeDirs (ancestors (abs path)) fs.nodes with ⟨_ | e, nodes⟩
      · rw [hm] at hext
        simp only [] at hext ⊢
        have hroot : abs path ≠ "/" := by
          intro hr
          unfold kind at hk
          simp [h0, hr] at hk
        rcases hf : find (abs path) nodes with _ | v
        · refine ⟨rfl, extends_trans hext (extends_append _ _ _), ?_, by simp⟩
          intro _
          unfold kind
          simp only [if_neg h0, if_neg hroot]
          exact find_append_new _ _ _ hf
        · cases v
          · exact ⟨rfl, hext, by simp, by simp⟩
          · refine ⟨rfl, hext, ?_, by simp⟩
            intro _
            unfold kind
            simp only [if_neg h0, if_neg hroot]
            exact hf
      · rw [hm] at hext
        exact ⟨rfl, hext, by simp, by simp⟩
    · cases v
      · exact ⟨rfl, extends_refl _, by simp, by simp⟩
      · exact ⟨rfl, extends_refl _, fun _ => hk, fun _ => rfl⟩

theorem onlyDirs_append (n : List (String × Bool)) (p : String) : OnlyDirs n (n ++ [(p, true)]) := by
  intro a v h
  rw [find_append] at h
  rcases hf : find a n with _ | v2
  · rw [hf] at h
    by_cases hp : p = a
    · simp [hp] at h
      exact Or.inr h
    · simp [hp] at h
  · rw [hf] at h
    exact Or.inl h

theorem makeDirs_onlyDirs (ps : List String) (n : List (String × Bool)) :
    OnlyDirs n (makeDirs ps n).2 := by
  induction ps generalizing n with
  | nil => exact fun a v h => Or.inl h
  | cons p ps ih =>
    unfold makeDirs
    rcases hf : find p n with _ | v
    · intro a v h
      rcases ih _ a v h with h1 | h1
      · exact onlyDirs_append n p a v h1
      · exact Or.inr h1
    · cases v
      · exact fun a v h => Or.inl h
      · exact ih n

/-- The function `mkdirAll` adds directories only. -/
theorem mkdirAll_onlyDirs (path : String) (perm : Nat) (fs : SimFS) :
    OnlyDirs fs.nodes (mkdirAll path perm fs).2.nodes := by
  unfold mkdirAll
  by_cases h0 : path = ""
  · simp only [if_pos h0]
    exact fun a v h => Or.inl h
  · rw [if_neg h0]
    rcases hk : fs.kind path with _ | v
    · simp only []
      have hd := makeDirs_onlyDirs (ancestors (abs path)) fs.nodes
      rcases hm : makeDirs (ancestors (abs path)) fs.nodes with ⟨_ | e, nodes⟩
      · rw [hm] at hd
        simp only [] at hd ⊢
        rcases hf : find (abs path) nodes with _ | v
        · intro a v h
          rcases onlyDirs_append nodes (abs path) a v h with h1 | h1
          · exact hd a v h1
          · exact Or.inr h1
        · cases v <;> exact hd
      · rw [hm] at hd
        exact hd
    · cases v <;> exact fun a v h => Or.inl h

/-- A path that exists after nodes were added as directories existed before
or is a directory. -/
theorem kind_onlyDirs {fs fs2 : SimFS} (h : OnlyDirs fs.nodes fs2.nodes) (path : String)
    (v : Bool) (hk : fs2.kind path = some v) : fs.kind path = some v ∨ v = true := by
  unfold kind at hk ⊢
  by_cases h0 : path = ""
  · simp [h0] at hk
  · rw [if_neg h0] at hk ⊢
    by_cases hr : abs path = "/"
    · rw [if_pos hr] at hk ⊢
      exact Or.inl hk
    · rw [if_neg hr] at hk ⊢
      exact h _ _ hk

theorem stat_effect (path : String) (fs : SimFS) :
    (stat path fs).2 = fs ∧
    (∀ info, (stat path fs).1 = Except.ok info → fs.kind path = some info.isDir) ∧
    (∀ v, fs.kind path = some v → (stat path fs).1 = Except.ok ⟨v⟩) := by
  unfold stat
  rcases hk : fs.kind path with _ | v
  · simp
  · refine ⟨rfl, ?_, ?_⟩
    · intro info h
      simp only [Except.ok.injEq] at h
      rw [← h]
    · intro v2 h
      simp only [Option.some.injEq] at h
      rw [h]

/-- The effect of `mkdir`. -/
theorem mkdir_effect (path : String) (perm : Nat) (fs : SimFS) :
    (mkdir path perm fs).2.mounts = fs.mounts ∧
    Extends fs.nodes (mkdir path perm fs).2.nodes ∧
    ((mkdir path perm fs).1 = none →
      fs.kind path = none ∧ (mkdir path perm fs).2.kind path = some true) ∧
    (isExist (mkdir path perm fs).1 = true →
      (mkdir path perm fs).2 = fs ∧ fs.kind path ≠ none) ∧
    (fs.kind path ≠ none → mkdir path perm fs = (some (Error.errno EEXIST), fs)) := by
  unfold mkdir
  by_cases h0 : path = ""
  · simp [h0, extends_refl, isExist, kind, ENOENT, EEXIST, ENOTEMPTY]
  · rw [if_neg h0]
    rcases hk : fs.kind path with _ | v
    · simp only []
      rcases hc : create fs path true with ⟨_ | e, fs2⟩
      · obtain ⟨h1, h2, h3⟩ := create_ok fs fs2 path true hk h0 hc
        exact ⟨h1, h2, fun _ => ⟨trivial, h3⟩, by simp [isExist], by simp⟩
      · have := create_err fs fs2 path true e hc
        subst this
        refine ⟨rfl, extends_refl _, by simp, ?_, by simp⟩
        intro hx
        exfalso
        unfold create at hc
        rcases hp : fs2.kind (parent (abs path)) with _ | v
        · simp only [hp, Prod.mk.injEq, Option.some.injEq] at hc
          rw [← hc.1] at hx
          simp [isExist, ENOENT, EEXIST, ENOTEMPTY] at hx
        · cases v
          · simp only [hp, Prod.mk.injEq, Option.some.injEq] at hc
            rw [← hc.1] at hx
            simp [isExist, ENOTDIR, EEXIST, ENOTEMPTY] at hx
          · simp [hp] at hc
    · exact ⟨rfl, extends_refl _, by simp, fun _ => ⟨by simp, by simp⟩, fun _ => rfl⟩

/-- The effect of `openFile` with `O_CREATE` when it succeeds. -/
theorem openFile_effect (path : String) (perm : Nat) (fs : SimFS) (file : Nat)
    (h : (openFile path O_CREATE perm fs).1 = Except.ok file) :
    (openFile path O_CREATE perm fs).2.mounts = fs.mounts ∧
    Extends fs.nodes (openFile path O_CREATE perm fs).2.nodes ∧
    (openFile path O_CREATE perm fs).2.kind path = some false ∧
    (fs.kind path ≠ none → (openFile path O_CREATE perm fs).2 = fs) := by
  have hflag : O_CREATE &&& O_CREATE ≠ 0 := by decide
  unfold openFile at h ⊢
  by_cases h0 : path = ""
  · simp [h0] at h
  · rw [if_neg h0] at h ⊢
    rcases hk : fs.kind path with _ | v
    · simp only [hk, if_pos hflag] at h ⊢
      rcases hc : create fs path false with ⟨_ | e, fs2⟩
      · obtain ⟨h1, h2, h3⟩ := create_ok fs fs2 path false hk h0 hc
        exact ⟨h1, h2, h3, by simp⟩
      · simp [hc] at h
    · cases v
      · exact ⟨rfl, extends_refl _, hk, fun _ => rfl⟩
      · exfalso
        rw [hk] at h
        simp only [] at h
        rw [if_pos hflag] at h
        simp at h

/-- An `openFile` with `O_CREATE` of a file that exists succeeds and changes nothing. -/
theorem openFile_existing (path : String) (perm : Nat) (fs : SimFS)
    (h : fs.kind path = some false) : openFile path O_CREATE perm fs = (Except.ok 3, fs) := by
  unfold openFile
  have h0 : path ≠ "" := by
    intro h0
    simp [kind, h0] at h
  rw [if_neg h0, h]

/-- What a successful `ensureDestinationExists` leaves on the file system: the
mounts and the nodes that existed stay; the directory part of the destination
is a directory; the destination exists, as a directory if it was created for
a directory source or a mount that is no bind mount, and as a file otherwise. -/
theorem ensure_effect (source destination fsType : String) (w w' : World SimFS)
    (h : ensureDestinationExists SimFS.os source destination fsType w = (none, w')) :
    w'.st.mounts = w.st.mounts ∧ Extends w.st.nodes w'.st.nodes ∧
    ∃ isDir, w.st.kind source = some isDir ∧
      w'.st.kind (filepath.Split destination).1 = some true ∧
      ((fsType ≠ "bind" ∨ isDir = true) →
        w'.st.kind destination ≠ none ∧
        (w.st.kind destination = none → w'.st.kind destination = some true)) ∧
      (¬ (fsType ≠ "bind" ∨ isDir = true) → w'.st.kind destination = some false) := by
  obtain ⟨info, hs, hp, hbranch⟩ :=
    ensureDestinationExists_ok_inv SimFS.os source destination fsType w w' h
  change (stat source w.st).1 = Except.ok info at hs
  change (mkdirAll (filepath.Split destination).1 mountPerm (stat source w.st).2).1 = none at hp
  have hst := stat_effect source w.st
  rw [hst.1] at hp
  obtain ⟨m1, m2, m3, _⟩ := mkdirAll_effect (filepath.Split destination).1 mountPerm w.st
  have m5 := mkdirAll_onlyDirs (filepath.Split destination).1 mountPerm w.st
  have hparent := m3 hp
  rcases hbranch with ⟨hc, hw, hres⟩ | ⟨hc, file, hopen, hw⟩
  · change w'.st = (mkdir destination mountPerm
      (mkdirAll (filepath.Split destination).1 mountPerm (stat source w.st).2).2).2 at hw
    change (mkdir destination mountPerm
      (mkdirAll (filepath.Split destination).1 mountPerm (stat source w.st).2).2).1 = none ∨
      isExist (mkdir destination mountPerm
      (mkdirAll (filepath.Split destination).1 mountPerm (stat source w.st).2).2).1 = true at hres
    rw [hst.1] at hw hres
    obtain ⟨d1, d2, d3, d4, _⟩ := mkdir_effect destination mountPerm
      (mkdirAll (filepath.Split destination).1 mountPerm w.st).2
    rw [← hw] at d1 d2 d3 d4
    refine ⟨d1.trans m1, extends_trans m2 d2, info.isDir, hst.2.1 info hs,
      kind_mono d2 _ _ hparent, ?_, fun hn => absurd hc hn⟩
    intro _
    rcases hres with hres | hres
    · obtain ⟨_, hk⟩ := d3 hres
      exact ⟨by rw [hk]; simp, fun _ => hk⟩
    · obtain ⟨heq, hk⟩ := d4 hres
      rw [heq]
      refine ⟨hk, ?_⟩
      intro hnew
      rcases hv : (mkdirAll (filepath.Split destination).1 mountPerm w.st).2.kind destination
        with _ | v
      · exact absurd hv hk
      · rcases kind_onlyDirs m5 destination v hv with h1 | h1
        · rw [hnew] at h1
          simp at h1
        · rw [h1]
  · change (openFile destination O_CREATE mountPerm
      (mkdirAll (filepath.Split destination).1 mountPerm (stat source w.st).2).2).1
        = Except.ok file at hopen
    change w'.st = (openFile destination O_CREATE mountPerm
      (mkdirAll (filepath.Split destination).1 mountPerm (stat source w.st).2).2).2 at hw
    rw [hst.1] at hw hopen
    obtain ⟨o1, o2, o3, _⟩ := openFile_effect destination mountPerm _ file hopen
    rw [← hw] at o1 o2 o3
    exact ⟨o1.trans m1, extends_trans m2 o2, info.isDir, hst.2.1 info hs,
      kind_mono o2 _ _ hparent, fun hy => absurd hy hc, fun _ => o3⟩

/-- On a destination that exists with the kind wanted, below a directory that
exists, `ensureDestinationExists` succeeds and leaves the file system as it is. -/
theorem ensure_noop (source destination fsType : String) (w : World SimFS) (isDir : Bool)
    (hs : w.st.kind source = some isDir)
    (hp : w.st.kind (filepath.Split destination).1 = some true)
    (hdir : (fsType ≠ "bind" ∨ isDir = true) → w.st.kind destination ≠ none)
    (hfile : ¬ (fsType ≠ "bind" ∨ isDir = true) → w.st.kind destination = some false) :
    (ensureDestinationExists SimFS.os source destination fsType w).1 = none ∧
    (ensureDestinationExists SimFS.os source destination fsType w).2.st = w.st := by
  unfold ensureDestinationExists
  simp only [doStat, doMkdirAll, doMkdir, doOpenFile, doClose]
  have e1 : SimFS.os.stat source w.st = (Except.ok ⟨isDir⟩, w.st) := by
    change stat source w.st = _
    have := stat_effect source w.st
    exact Prod.ext (this.2.2 isDir hs) this.1
  have e2 : SimFS.os.mkdirAll (filepath.Split destination).1 mountPerm w.st = (none, w.st) :=
    (mkdirAll_effect (filepath.Split destination).1 mountPerm w.st).2.2.2 hp
  simp only [e1, e2]
  by_cases hc : fsType ≠ "bind" ∨ isDir = true
  · rw [if_pos hc]
    have e3 : SimFS.os.mkdir destination mountPerm w.st = (some (Error.errno EEXIST), w.st) :=
      (mkdir_effect destination mountPerm w.st).2.2.2.2 (hdir hc)
    simp [e3, isExist]
  · rw [if_neg hc]
    have e3 : SimFS.os.openFile destination O_CREATE mountPerm w.st = (Except.ok 3, w.st) :=
      openFile_existing destination mountPerm w.st (hfile hc)
    simp [e3]
    rfl

end SimFS

/-- C8: when the source exists (`os.Stat` succeeds) and the parent of the
destination can be created (`os.MkdirAll` of the directory part, with mode
0755, succeeds), `ensureDestinationExists` creates a directory at the
destination with `os.Mkdir` when `fsType` is not `bind` or the source is a
directory, and an empty file with `os.OpenFile` and `O_CREATE` otherwise. For
the directory the results nil and "already exists" are a success and any
other error is returned; for the file the error of `os.OpenFile` is returned.
On the file system, after a success the destination exists, as a directory
when it was absent and a directory was wanted, as a file when a file was
wanted, and a second call succeeds and changes nothing. -/
theorem ensureDestinationExists_spec {σ : Type} (os : OS σ)
    (source destination fsType : String) (w : World σ) (info : FileInfo)
    (hstat : (os.stat source w.st).1 = Except.ok info)
    (hparent : (os.mkdirAll (filepath.Split destination).1 mountPerm (os.stat source w.st).2).1
      = none) :
    mountPerm = 0o755 ∧
    ((fsType ≠ "bind" ∨ info.isDir = true) →
      (ensureDestinationExists os source destination fsType w).2.log =
        w.log ++ [Call.stat source, Call.mkdirAll (filepath.Split destination).1 mountPerm,
          Call.mkdir destination mountPerm] ∧
      ((os.mkdir destination mountPerm
          (os.mkdirAll (filepath.Split destination).1 mountPerm (os.stat source w.st).2).2).1 = none →
        (ensureDestinationExists os source destination fsType w).1 = none) ∧
      (isExist (os.mkdir destination mountPerm
          (os.mkdirAll (filepath.Split destination).1 mountPerm (os.stat source w.st).2).2).1 = true →
        (ensureDestinationExists os source destination fsType w).1 = none) ∧
      (∀ e, (os.mkdir destination mountPerm
          (os.mkdirAll (filepath.Split destination).1 mountPerm (os.stat source w.st).2).2).1
            = some e →
        isExist (some e) = false →
        (ensureDestinationExists os source destination fsType w).1 = some e)) ∧
    (¬ (fsType ≠ "bind" ∨ info.isDir = true) →
      (∀ file, (os.openFile destination O_CREATE mountPerm
          (os.mkdirAll (filepath.Split destination).1 mountPerm (os.stat source w.st).2).2).1
            = Except.ok file →
        (ensureDestinationExists os source destination fsType w).1 = none ∧
        (ensureDestinationExists os source destination fsType w).2.log =
          w.log ++ [Call.stat source, Call.mkdirAll (filepath.Split destination).1 mountPerm,
            Call.openFile destination O_CREATE mountPerm, Call.close file]) ∧
      (∀ e, (os.openFile destination O_CREATE mountPerm
          (os.mkdirAll (filepath.Split destination).1 mountPerm (os.stat source w.st).2).2).1
            = Except.error e →
        (ensureDestinationExists os source destination fsType w).1 = some e ∧
        (ensureDestinationExists os source destination fsType w).2.log =
          w.log ++ [Call.stat source, Call.mkdirAll (filepath.Split destination).1 mountPerm,
            Call.openFile destination O_CREATE mountPerm])) ∧
    (∀ (v v2 : World SimFS),
      ensureDestinationExists SimFS.os source destination fsType v = (none, v2) →
      (∃ isDir, v.st.kind source = some isDir ∧
        ((fsType ≠ "bind" ∨ isDir = true) →
          v2.st.kind destination ≠ none ∧
          (v.st.kind destination = none → v2.st.kind destination = some true)) ∧
        (¬ (fsType ≠ "bind" ∨ isDir = true) → v2.st.kind destination = some false)) ∧
      (ensureDestinationExists SimFS.os source destination fsType v2).1 = none ∧
      (ensureDestinationExists SimFS.os source destination fsType v2).2.st = v2.st) := by
  refine ⟨rfl, ?_, ?_, ?_⟩
  · intro hc
    unfold ensureDestinationExists
    simp only [doStat, doMkdirAll, doMkdir]
    rcases hs : os.stat source w.st with ⟨r, s1⟩
    rw [hs] at hstat hparent
    simp only [] at hstat hparent
    subst hstat
    simp only []
    rcases hp : os.mkdirAll (filepath.Split destination).1 mountPerm s1 with ⟨r2, s2⟩
    rw [hp] at hparent
    simp only [] at hparent
    subst hparent
    simp only [if_pos hc]
    rcases os.mkdir destination mountPerm s2 with ⟨r3, s3⟩
    simp only []
    refine ⟨?_, ?_, ?_, ?_⟩
    · split <;> simp
    · intro h
      subst h
      simp [isExist]
    · intro h
      simp [h]
    · intro e h hx
      subst h
      simp [hx]
  · intro hc
    unfold ensureDestinationExists
    simp only [doStat, doMkdirAll, doOpenFile, doClose]
    rcases hs : os.stat source w.st with ⟨r, s1⟩
    rw [hs] at hstat hparent
    simp only [] at hstat hparent
    subst hstat
    simp only []
    rcases hp : os.mkdirAll (filepath.Split destination).1 mountPerm s1 with ⟨r2, s2⟩
    rw [hp] at hparent
    simp only [] at hparent
    subst hparent
    simp only [if_neg hc]
    rcases os.openFile destination O_CREATE mountPerm s2 with ⟨r3, s3⟩
    simp only []
    refine ⟨?_, ?_⟩
    · intro file h
      subst h
      simp
    · intro e h
      subst h
      simp
  · intro v v2 h
    obtain ⟨_, e2, isDir, e3, e4, e5, e6⟩ := SimFS.ensure_effect source destination fsType v v2 h
    refine ⟨⟨isDir, e3, e5, e6⟩, ?_⟩
    exact SimFS.ensure_noop source destination fsType v2 isDir
      (SimFS.kind_mono e2 source isDir e3) e4 (fun hc => (e5 hc).1) e6

/-- C8 on concrete runs in a guest with the directory `/src` and the file
`/etc/hosts`: for the directory source the directory `/mnt/x` is made with
`os.Mkdir`, with its parent `/mnt`. -/
theorem ensureDestinationExists_spec_witness :
    (ensureDestinationExists SimFS.os "/src" "/mnt/x" "bind" ⟨smallFS, []⟩).2.log =
      [Call.stat "/src", Call.mkdirAll "/mnt/" 0o755, Call.mkdir "/mnt/x" 0o755] ∧
    (ensureDestinationExists SimFS.os "/src" "/mnt/x" "bind" ⟨smallFS, []⟩).1 = none ∧
    (ensureDestinationExists SimFS.os "/src" "/mnt/x" "bind" ⟨smallFS, []⟩).2.st =
      ⟨[("/src", true), ("/etc", true), ("/etc/hosts", false), ("/mnt", true), ("/mnt/x", true)],
        [], []⟩ ∧
    (ensureDestinationExists SimFS.os "/etc/hosts" "/run/hosts" "bind" ⟨smallFS, []⟩).2.st =
      ⟨[("/src", true), ("/etc", true), ("/etc/hosts", false), ("/run", true),
        ("/run/hosts", false)], [], []⟩ :=
  ⟨((ensureDestinationExists_spec SimFS.os "/src" "/mnt/x" "bind" ⟨smallFS, []⟩ ⟨true⟩
      (by decide) (by decide)).2.1 (by decide)).1,
    ((ensureDestinationExists_spec SimFS.os "/src" "/mnt/x" "bind" ⟨smallFS, []⟩ ⟨true⟩
      (by decide) (by decide)).2.1 (by decide)).2.1 (by decide),
    by decide, by decide⟩

example : filepath.Join ["/dev", "sda"] = "/dev/sda" := by decide
example : filepath.Join ["/tmp/hyper", "c1", "root"] = "/tmp/hyper/c1/root" := by decide
example : filepath.Join ["/dev", "0:2:0/block"] = "/dev/0:2:0/block" := by decide
example : filepath.Join ["/a/b", "../c"] = "/a/c" := by decide
example : filepath.Join ["", ""] = "" := by decide
example : filepath.Join ["a", ""] = "a" := by decide
example : filepath.Clean "../../a/..//b/." = "../../b" := by decide
example : filepath.Clean "/.." = "/" := by decide
example : filepath.Clean "" = "." := by decide
example : filepath.Split "/a/b" = ("/a/", "b") := by decide
example : filepath.Split "/a/b/" = ("/a/b/", "") := by decide
example : filepath.Split "b" = ("", "b") := by decide
example : filepath.Base "/devices/vda/block/vdb" = "vdb" := by decide
example : filepath.Base "" = "." := by decide
example : filepath.Base "///" = "/" := by decide
example : filepath.Base "/a/b//" = "b" := by decide
example : strings.Contains "/devices/0:0:2:0/block/sda" "0:2:0/block" = true := by decide
example : strings.Contains "" "." = false := by decide
example : strings.Contains "abc" "" = true := by decide

example : (SimFS.evalSymlinks "/nope/../src" smallFS).1 = Except.error (Error.errno ENOENT) := by
  decide
example : (SimFS.evalSymlinks "/src/../etc/hosts" smallFS).1 = Except.ok "/etc/hosts" := by
  decide
example : (SimFS.evalSymlinks "/etc/hosts/" smallFS).1 = Except.error (Error.errno ENOTDIR) := by
  decide
example : (SimFS.unmount "/nope" 0 mountedFS).1 = some (Error.errno ENOENT) := by decide
example : (SimFS.unmount "/tmp/hyper/c1" 0 mountedFS).1 = some (Error.errno EINVAL) := by decide
example : (SimFS.unmount "/tmp/hyper/c1/root" 0 mountedFS).1 = some (Error.errno EBUSY) := by
  decide

/-- A recursive bind mount of a directory with mounts below it copies these
mounts, and the unmount of its destination is then refused with `EBUSY`; the
bind mount that is not recursive can be unmounted. -/
example :
    (bindMount SimFS.os "/tmp/hyper/c1" "/mnt" true ⟨mountedFS, []⟩).1 = none ∧
    (bindMount SimFS.os "/tmp/hyper/c1" "/mnt" true ⟨mountedFS, []⟩).2.st.mounts =
      [("/mnt/root/rootfs", "/tmp/hyper/c1/root/rootfs"), ("/mnt/root", "/dev/sda"),
        ("/mnt", "/tmp/hyper/c1")] ++ mountedFS.mounts ∧
    (doUnmount SimFS.os "/mnt" 0
      (bindMount SimFS.os "/tmp/hyper/c1" "/mnt" true ⟨mountedFS, []⟩).2).1
        = some (Error.errno EBUSY) ∧
    (doUnmount SimFS.os "/mnt" 0
      (bindMount SimFS.os "/tmp/hyper/c1" "/mnt" false ⟨mountedFS, []⟩).2).1 = none := by
  decide

end Agent
